import Mathlib

/-!
# Verification of the solrindexing metadata-to-document transformation

Shallow embedding of `src/solrindexer/indexdata.py` (MET Norway SOLR
indexer).  The Python data is the `xmltodict` tree of an MMD record and the
`OrderedDict` SolR document; both are modelled as association lists from
string keys to a universal value type `Val` that mirrors the Python value
shapes the code distinguishes with `isinstance` (str / None / float /
one-element tuple / list / dict).  External collaborators (shapely geometry
serialisation, float formatting, the SolR store, netCDF feature-type and
WMS thumbnail services) are modelled by explicit parameters or small
abstract value constructors; everything the repository's own code computes
is translated line by line.
-/

namespace SolrInd

/-- Geometry values produced through the external `shapely` library.
`point` is `shapely.geometry.Point(x, y)`, `boxCCW`/`boxCW` are
`shapely.geometry.box(minx, miny, maxx, maxy)` with the default `ccw=True`
resp. explicit `ccw=False`.  The code stores their `.wkt` serialisation; we
keep the geometry itself, the WKT text being external formatting. -/
inductive Geom where
  | point (x y : ℚ)
  | boxCCW (minx miny maxx maxy : ℚ)
  | boxCW (minx miny maxx maxy : ℚ)
  deriving DecidableEq

/-- Universal value type for the xmltodict input tree and the SolR output
dictionary: Python `str`, `None`, `float`, a one-element tuple `(q,)`
(created by the source's trailing commas), `list`, nested `dict`, and a
shapely WKT string (see `Geom`). -/
inductive Val where
  | s (v : String)
  | null
  | num (q : ℚ)
  | numT (q : ℚ)
  | list (xs : List Val)
  | dict (kvs : List (String × Val))
  | geom (g : Geom)

/-- A Python dict with string keys (insertion ordered, unique keys). -/
abbrev Doc := List (String × Val)

namespace Doc

/-- `d[k]` lookup: first binding of `k` (Python dicts have unique keys). -/
def get : Doc → String → Option Val
  | [], _ => none
  | (k', v) :: rest, k => if k' = k then some v else get rest k

/-- `d[k] = v`: overwrite in place if the key exists, else append (the
insertion-order behaviour of a Python dict assignment). -/
def set : Doc → String → Val → Doc
  | [], k, v => [(k, v)]
  | (k', v') :: rest, k, v =>
      if k' = k then (k', v) :: rest else (k', v') :: set rest k v

/-- `d.pop(k)` guarded by `if k in d`: remove the binding if present. -/
def pop : Doc → String → Doc
  | [], _ => []
  | (k', v) :: rest, k => if k' = k then rest else (k', v) :: pop rest k

/-- `k in d` on a Python dict tests key membership. -/
def hasKey (d : Doc) (k : String) : Bool := (d.get k).isSome

end Doc

@[simp] theorem Doc.get_nil (k : String) : Doc.get [] k = none := rfl

@[simp] theorem Doc.get_set_same (d : Doc) (k : String) (v : Val) :
    (d.set k v).get k = some v := by
  induction d with
  | nil => simp [Doc.set, Doc.get]
  | cons kv rest ih =>
      by_cases h : kv.1 = k <;> simp [Doc.set, Doc.get, h, ih]

@[simp] theorem Doc.get_set_ne (d : Doc) (k k' : String) (v : Val)
    (h : k' ≠ k) : (d.set k v).get k' = d.get k' := by
  induction d with
  | nil => simp [Doc.set, Doc.get, Ne.symm h]
  | cons kv rest ih =>
      by_cases hk : kv.1 = k
      · subst hk; simp [Doc.set, Doc.get, Ne.symm h, h]
      · by_cases hk' : kv.1 = k' <;> simp [Doc.set, Doc.get, hk, hk', ih, h]

@[simp] theorem Doc.get_pop_ne (d : Doc) (k k' : String) (h : k' ≠ k) :
    (d.pop k).get k' = d.get k' := by
  induction d with
  | nil => simp [Doc.pop]
  | cons kv rest ih =>
      by_cases hk : kv.1 = k
      · subst hk; simp [Doc.pop, Doc.get, Ne.symm h, h]
      · by_cases hk' : kv.1 = k' <;> simp [Doc.pop, Doc.get, hk, hk', ih, h]

/-! ## Python string primitives used by the source -/

/-- `s.split(':')` on the character level: split a char list at every
occurrence of `c` (Python semantics: `"mmd:role".split(':') = ["mmd","role"]`,
a string without the separator yields the one-element list). -/
def splitOnChar (c : Char) : List Char → List (List Char)
  | [] => [[]]
  | x :: xs =>
      match splitOnChar c xs with
      | [] => [[]]
      | g :: gs => if x = c then [] :: g :: gs else (x :: g) :: gs

/-- `key.split(':')[-1]`, the last component after splitting at colons. -/
def lastComp (s : String) : String :=
  ⟨(splitOnChar ':' s.data).getLastD []⟩

/-- Fuel-driven worker for `str.replace`: replace every (leftmost,
non-overlapping) occurrence of `pat` by `rep`.  The fuel is instantiated
with the string length, which suffices for every non-empty pattern. -/
def replaceFuel (pat rep : List Char) : Nat → List Char → List Char
  | 0, s => s
  | _ + 1, [] => []
  | n + 1, x :: xs =>
      if pat.isPrefixOf (x :: xs) then
        rep ++ replaceFuel pat rep n (xs.drop (pat.length - 1))
      else
        x :: replaceFuel pat rep n xs

/-- Python `s.replace(pat, rep)` for a non-empty pattern. -/
def pyReplace (s pat rep : String) : String :=
  ⟨replaceFuel pat.data rep.data s.data.length s.data⟩

/-- Python `needle in hay` on two strings: substring containment. -/
def strIn (needle hay : String) : Bool :=
  (List.range (hay.data.length + 1)).any
    (fun i => needle.data.isPrefixOf (hay.data.drop i))

/-- The identifier sanitisation of `MMD4SolR.tosolr` and
`IndexMMD.add_level2`: `for e in [':','/','.']: myid = myid.replace(e,'-')`. -/
def sanitizeId (s : String) : String :=
  pyReplace (pyReplace (pyReplace s ":" "-") "/" "-") "." "-"

/-- Python truthiness for the value shapes of `Val` (used by
`if not role:`). -/
def pyFalsy : Val → Bool
  | .null => true
  | .s v => v = ""
  | .num q => q = 0
  | .numT _ => false
  | .list xs => xs.isEmpty
  | .dict kvs => kvs.isEmpty
  | .geom _ => false

/-- Python `v == t` against a string literal: true exactly for an equal
string (cross-type `==` in Python is `False`). -/
def Val.eqStr : Val → String → Bool
  | .s v, t => v = t
  | _, _ => false

/-! ## Error model

The Python exceptions the translated code can raise.
`missingSpatialBounds` is the distinct `raise Warning('Missing spatial
bounds')` of the geographic-extent handling; the others are the built-in
exception classes. -/

inductive PyErr where
  | keyError
  | typeError
  | attrError
  | nameError
  | indexError
  | missingSpatialBounds
  deriving DecidableEq

/-- "one or many" input ambiguity: an xmltodict element that is a single
dict or a list of dicts; the source coerces `dict → [dict]`. -/
inductive OneOrMany (α : Type) where
  | one (a : α)
  | many (xs : List α)

/-- `if isinstance(x, dict): x = [x]` — the coercion applied to every
repeated group before iteration. -/
def OneOrMany.toList : OneOrMany α → List α
  | .one a => [a]
  | .many xs => xs

/-! ## Geometry deriver (`MMD4SolR.tosolr`, lines 457–556)

A bound value carries the raw xmltodict string together with the rational
result of Python's `float(...)` on it (the float parse itself is external;
the pair records its outcome).  `Option` is `None` (an empty XML element);
a rectangle is the `mmd:rectangle` dict with its four bound keys. -/

structure NumStr where
  raw : String
  val : ℚ
  deriving DecidableEq

structure Rect where
  north : Option NumStr
  south : Option NumStr
  east : Option NumStr
  west : Option NumStr
  srsName : Option String := none

/-- The `mmd:geographic_extent` element: a single extent dict or a repeated
list (the latter is the "multiple bounding boxes" branch). -/
inductive GeoExtent where
  | single (r : Rect)
  | multi (rs : List Rect)

/-- Python `max` over a non-empty list (`[]` never reached: the branch is
guarded by a non-emptiness test in the caller). -/
def pyMax : List ℚ → ℚ
  | [] => 0
  | x :: xs => xs.foldl max x

/-- Python `min` over a non-empty list. -/
def pyMin : List ℚ → ℚ
  | [] => 0
  | x :: xs => xs.foldl min x

/-- `float` values contributed by one optional bound. -/
def optVals : Option NumStr → List ℚ
  | some x => [x.val]
  | none => []

/-- `latvals`: for each rectangle append its non-null `north` then `south`
(lines 466–470). -/
def latValsOf (rs : List Rect) : List ℚ :=
  rs.foldr (fun r acc => optVals r.north ++ (optVals r.south ++ acc)) []

/-- `lonvals`: for each rectangle append its non-null `east` then `west`
(lines 471–474). -/
def lonValsOf (rs : List Rect) : List ℚ :=
  rs.foldr (fun r acc => optVals r.east ++ (optVals r.west ++ acc)) []

/-- The point/box derivation of the multiple-rectangle branch (lines
482–504).  It reuses `e`, the LAST loop variable of the collection loop;
`float(None)` on a null bound of that last rectangle is a TypeError. -/
def geoMultiGeom (d : Doc) (rs : List Rect) : Doc × Option PyErr :=
  match rs.getLast? with
  | none => (d, none)
  | some e =>
      match e.north, e.south with
      | some n, some s =>
          if n.val = s.val then
            match e.east, e.west with
            | some ee, some ww =>
                if ee.val = ww.val then
                  (d.set "polygon_rpt" (.geom (.point ee.val n.val)), none)
                else (d, none)
            | _, _ => (d, some .typeError)
          else
            (d.set "polygon_rpt" (.geom (.boxCCW (pyMin (lonValsOf rs))
              (pyMin (latValsOf rs)) (pyMax (lonValsOf rs))
              (pyMax (latValsOf rs)))), none)
      | _, _ => (d, some .typeError)

/-- The four flattened bounds and the envelope of the multiple-rectangle
branch (lines 477–481).  `fstr` is Python's `str(float)` formatting, an
external collaborator. -/
def geoBoundsDoc (d : Doc) (rs : List Rect) (fstr : ℚ → String) : Doc :=
  ((((d.set "geographic_extent_rectangle_north"
      (.num (pyMax (latValsOf rs)))).set
    "geographic_extent_rectangle_south" (.num (pyMin (latValsOf rs)))).set
    "geographic_extent_rectangle_west" (.num (pyMin (lonValsOf rs)))).set
    "geographic_extent_rectangle_east" (.num (pyMax (lonValsOf rs)))).set
    "bbox" (.s ("ENVELOPE(" ++ fstr (pyMin (lonValsOf rs)) ++ "," ++
      fstr (pyMax (lonValsOf rs)) ++ "," ++ fstr (pyMax (latValsOf rs)) ++
      "," ++ fstr (pyMin (latValsOf rs)) ++ ")"))

/-- Multiple-rectangle branch (lines 461–511): flattened bounds plus
geometry when any non-null bounds were collected, the world-extent fallback
otherwise.  Returns the document state together with the raised exception,
if any. -/
def geoMulti (d : Doc) (rs : List Rect) (fstr : ℚ → String) :
    Doc × Option PyErr :=
  if ¬(latValsOf rs).isEmpty ∧ ¬(lonValsOf rs).isEmpty then
    geoMultiGeom (geoBoundsDoc d rs fstr) rs
  else
    ((((d.set "geographic_extent_rectangle_north" (.num 90)).set
      "geographic_extent_rectangle_south" (.num (-90))).set
      "geographic_extent_rectangle_west" (.num (-180))).set
      "geographic_extent_rectangle_east" (.num 180), none)

/-- Single-rectangle branch (lines 512–556).  A `None` bound sets
`metadata_status = 'Inactive'` on the document under construction and
raises the distinct `Warning('Missing spatial bounds')`. -/
def geoSingle (d : Doc) (r : Rect) : Doc × Option PyErr :=
  if r.north = none ∨ r.south = none ∨ r.east = none ∨ r.west = none then
    (d.set "metadata_status" (.s "Inactive"), some .missingSpatialBounds)
  else
    match r.north, r.south, r.east, r.west with
    | some n, some s, some e, some w =>
        -- trailing commas in the source make these one-element tuples
        let d := d.set "geographic_extent_rectangle_north" (.numT n.val)
        let d := d.set "geographic_extent_rectangle_south" (.numT s.val)
        let d := d.set "geographic_extent_rectangle_east" (.numT e.val)
        let d := d.set "geographic_extent_rectangle_west" (.numT w.val)
        let d := match r.srsName with
          | some srs => d.set "geographic_extent_rectangle_srsName"
              (.s srs)  -- also a one-element tuple in the source
          | none => d
        let d := d.set "bbox" (.s ("ENVELOPE(" ++ w.raw ++ "," ++ e.raw ++
          "," ++ n.raw ++ "," ++ s.raw ++ ")"))
        if s.val = n.val then
          if e.val = w.val then
            (d.set "polygon_rpt" (.geom (.point e.val n.val)), none)
          else (d, none)  -- no `else` inside: no geometry is emitted
        else
          (d.set "polygon_rpt" (.geom (.boxCW w.val s.val e.val n.val)), none)
    | _, _, _, _ => (d, some .typeError)  -- unreachable under the guard

/-- The whole geographic-extent section: `none` models an absent
`mmd:geographic_extent` key (or one equal to `None`), which is skipped
entirely by the guard on line 460. -/
def geoSection (d : Doc) (g : Option GeoExtent) (fstr : ℚ → String) :
    Doc × Option PyErr :=
  match g with
  | none => (d, none)
  | some (.single r) => geoSingle d r
  | some (.multi rs) => geoMulti d rs fstr

/-! ### Properties of `pyMax` / `pyMin` -/

theorem le_foldl_max (xs : List ℚ) (a : ℚ) : a ≤ xs.foldl max a := by
  induction xs generalizing a with
  | nil => simp
  | cons x xs ih => exact le_trans (le_max_left a x) (ih (max a x))

theorem foldl_max_le_of_mem {xs : List ℚ} {q : ℚ} (a : ℚ) (h : q ∈ xs) :
    q ≤ xs.foldl max a := by
  induction xs generalizing a with
  | nil => cases h
  | cons x xs ih =>
      rcases List.mem_cons.mp h with rfl | hm
      · exact le_trans (le_max_right a q) (le_foldl_max xs (max a q))
      · exact ih (max a x) hm

theorem foldl_max_mem (xs : List ℚ) (a : ℚ) :
    xs.foldl max a = a ∨ xs.foldl max a ∈ xs := by
  induction xs generalizing a with
  | nil => left; rfl
  | cons x xs ih =>
      rcases ih (max a x) with h | h
      · rcases max_choice a x with hc | hc
        · left; simpa [List.foldl, hc] using h
        · right; simp only [List.foldl] at *; rw [h, hc]; exact List.mem_cons_self _ _
      · right; exact List.mem_cons_of_mem _ h

theorem le_pyMax_of_mem {xs : List ℚ} {q : ℚ} (h : q ∈ xs) : q ≤ pyMax xs := by
  cases xs with
  | nil => cases h
  | cons x xs =>
      rcases List.mem_cons.mp h with rfl | hm
      · exact le_foldl_max xs q
      · exact foldl_max_le_of_mem x hm

theorem pyMax_mem {xs : List ℚ} (h : xs ≠ []) : pyMax xs ∈ xs := by
  cases xs with
  | nil => exact absurd rfl h
  | cons x xs =>
      rcases foldl_max_mem xs x with hc | hc
      · rw [pyMax, hc]; exact List.mem_cons_self _ _
      · exact List.mem_cons_of_mem _ hc

theorem foldl_min_le (xs : List ℚ) (a : ℚ) : xs.foldl min a ≤ a := by
  induction xs generalizing a with
  | nil => simp
  | cons x xs ih => exact le_trans (ih (min a x)) (min_le_left a x)

theorem foldl_min_le_of_mem {xs : List ℚ} {q : ℚ} (a : ℚ) (h : q ∈ xs) :
    xs.foldl min a ≤ q := by
  induction xs generalizing a with
  | nil => cases h
  | cons x xs ih =>
      rcases List.mem_cons.mp h with rfl | hm
      · exact le_trans (foldl_min_le xs (min a q)) (min_le_right a q)
      · exact ih (min a x) hm

theorem foldl_min_mem (xs : List ℚ) (a : ℚ) :
    xs.foldl min a = a ∨ xs.foldl min a ∈ xs := by
  induction xs generalizing a with
  | nil => left; rfl
  | cons x xs ih =>
      rcases ih (min a x) with h | h
      · rcases min_choice a x with hc | hc
        · left; simpa [List.foldl, hc] using h
        · right; simp only [List.foldl] at *; rw [h, hc]; exact List.mem_cons_self _ _
      · right; exact List.mem_cons_of_mem _ h

theorem pyMin_le_of_mem {xs : List ℚ} {q : ℚ} (h : q ∈ xs) : pyMin xs ≤ q := by
  cases xs with
  | nil => cases h
  | cons x xs =>
      rcases List.mem_cons.mp h with rfl | hm
      · exact foldl_min_le xs q
      · exact foldl_min_le_of_mem x hm

theorem pyMin_mem {xs : List ℚ} (h : xs ≠ []) : pyMin xs ∈ xs := by
  cases xs with
  | nil => exact absurd rfl h
  | cons x xs =>
      rcases foldl_min_mem xs x with hc | hc
      · rw [pyMin, hc]; exact List.mem_cons_self _ _
      · exact List.mem_cons_of_mem _ hc

@[simp] theorem latValsOf_cons (r : Rect) (rs : List Rect) :
    latValsOf (r :: rs) = optVals r.north ++ (optVals r.south ++ latValsOf rs) :=
  rfl

@[simp] theorem lonValsOf_cons (r : Rect) (rs : List Rect) :
    lonValsOf (r :: rs) = optVals r.east ++ (optVals r.west ++ lonValsOf rs) :=
  rfl

@[simp] theorem mem_optVals {o : Option NumStr} {q : ℚ} :
    q ∈ optVals o ↔ ∃ b, o = some b ∧ q = b.val := by
  cases o <;> simp [optVals]

theorem mem_latValsOf {rs : List Rect} {q : ℚ} :
    q ∈ latValsOf rs ↔
      ∃ r ∈ rs, ∃ b : NumStr,
        (r.north = some b ∨ r.south = some b) ∧ q = b.val := by
  induction rs with
  | nil => simp [latValsOf]
  | cons r rs ih =>
      simp only [latValsOf_cons, List.mem_append, ih, mem_optVals, List.mem_cons]
      aesop

theorem mem_lonValsOf {rs : List Rect} {q : ℚ} :
    q ∈ lonValsOf rs ↔
      ∃ r ∈ rs, ∃ b : NumStr,
        (r.east = some b ∨ r.west = some b) ∧ q = b.val := by
  induction rs with
  | nil => simp [lonValsOf]
  | cons r rs ih =>
      simp only [lonValsOf_cons, List.mem_append, ih, mem_optVals, List.mem_cons]
      aesop

theorem getLastQ_mem {α : Type} {l : List α} {a : α}
    (h : l.getLast? = some a) : a ∈ l := by
  induction l with
  | nil => cases h
  | cons x xs ih =>
      cases xs with
      | nil => simp [List.getLast?] at h; simp [h]
      | cons y ys =>
          rw [List.getLast?_cons_cons] at h
          exact List.mem_cons_of_mem _ (ih h)

theorem getLastQ_ne_nil {α : Type} {l : List α} (h : l ≠ []) :
    ∃ a, l.getLast? = some a := by
  cases l with
  | nil => exact absurd rfl h
  | cons x xs => exact ⟨(x :: xs).getLast (by simp), List.getLast?_eq_getLast _ _⟩

theorem latValsOf_ne_nil {rs : List Rect} (hne : rs ≠ [])
    (hall : ∀ r ∈ rs, ∃ b, r.north = some b) : latValsOf rs ≠ [] := by
  cases rs with
  | nil => exact absurd rfl hne
  | cons r rest =>
      obtain ⟨b, hb⟩ := hall r (List.mem_cons_self _ _)
      simp [latValsOf_cons, optVals, hb]

theorem lonValsOf_ne_nil {rs : List Rect} (hne : rs ≠ [])
    (hall : ∀ r ∈ rs, ∃ b, r.east = some b) : lonValsOf rs ≠ [] := by
  cases rs with
  | nil => exact absurd rfl hne
  | cons r rest =>
      obtain ⟨b, hb⟩ := hall r (List.mem_cons_self _ _)
      simp [lonValsOf_cons, optVals, hb]

theorem latValsOf_eq_nil {rs : List Rect}
    (hall : ∀ r ∈ rs, r.north = none ∧ r.south = none) : latValsOf rs = [] := by
  induction rs with
  | nil => rfl
  | cons r rest ih =>
      obtain ⟨hn, hs⟩ := hall r (List.mem_cons_self _ _)
      simp only [latValsOf_cons, hn, hs, optVals, List.nil_append]
      exact ih fun r' hr' => hall r' (List.mem_cons_of_mem _ hr')

/-- `polygon_rpt` may or may not be emitted; this wraps the two cases. -/
def setGeomOpt (d : Doc) : Option Geom → Doc
  | some g => d.set "polygon_rpt" (.geom g)
  | none => d

theorem geoMultiGeom_ok {rs : List Rect} (d : Doc) {e : Rect}
    {nb sb eb wb : NumStr} (hgl : rs.getLast? = some e)
    (hnb : e.north = some nb) (hsb : e.south = some sb)
    (heb : e.east = some eb) (hwb : e.west = some wb) :
    ∃ g : Option Geom, geoMultiGeom d rs = (setGeomOpt d g, none) := by
  simp only [geoMultiGeom, hgl, hnb, hsb, heb, hwb]
  by_cases h1 : nb.val = sb.val
  · by_cases h2 : eb.val = wb.val
    · exact ⟨some (.point eb.val nb.val), by simp [h1, h2, setGeomOpt]⟩
    · exact ⟨none, by simp [h1, h2, setGeomOpt]⟩
  · exact ⟨some (.boxCCW (pyMin (lonValsOf rs)) (pyMin (latValsOf rs))
      (pyMax (lonValsOf rs)) (pyMax (latValsOf rs))), by
        simp [h1, setGeomOpt]⟩

@[simp] theorem geoBoundsDoc_get_north (d : Doc) (rs : List Rect)
    (fstr : ℚ → String) :
    (geoBoundsDoc d rs fstr).get "geographic_extent_rectangle_north" =
      some (.num (pyMax (latValsOf rs))) := by
  simp [geoBoundsDoc]

@[simp] theorem geoBoundsDoc_get_south (d : Doc) (rs : List Rect)
    (fstr : ℚ → String) :
    (geoBoundsDoc d rs fstr).get "geographic_extent_rectangle_south" =
      some (.num (pyMin (latValsOf rs))) := by
  simp [geoBoundsDoc]

@[simp] theorem geoBoundsDoc_get_east (d : Doc) (rs : List Rect)
    (fstr : ℚ → String) :
    (geoBoundsDoc d rs fstr).get "geographic_extent_rectangle_east" =
      some (.num (pyMax (lonValsOf rs))) := by
  simp [geoBoundsDoc]

@[simp] theorem geoBoundsDoc_get_west (d : Doc) (rs : List Rect)
    (fstr : ℚ → String) :
    (geoBoundsDoc d rs fstr).get "geographic_extent_rectangle_west" =
      some (.num (pyMin (lonValsOf rs))) := by
  simp [geoBoundsDoc]

@[simp] theorem setGeomOpt_get_ne (d : Doc) (g : Option Geom) (k : String)
    (h : k ≠ "polygon_rpt") : (setGeomOpt d g).get k = d.get k := by
  cases g <;> simp [setGeomOpt, h]

theorem isEmpty_false_of_ne_nil {α : Type} {l : List α} (h : l ≠ []) :
    l.isEmpty = false := by
  cases l with
  | nil => exact absurd rfl h
  | cons x xs => rfl

/-- **C8.** For every record with multiple geographic rectangles (all four
bounds present on each), the derived bounds form the smallest enclosing box:
the derived north is an upper bound of every rectangle's latitude bounds and
is attained by one of them, and symmetrically for south (min), east (max),
west (min); no error is raised.  (`MMD4SolR.tosolr`, lines 461–481.) -/
theorem tosolr_geo_multi_enclosing_box (cd : Doc) (rs : List Rect)
    (fstr : ℚ → String) (hne : rs ≠ [])
    (hall : ∀ r ∈ rs, (∃ b, r.north = some b) ∧ (∃ b, r.south = some b) ∧
      (∃ b, r.east = some b) ∧ (∃ b, r.west = some b)) :
    ∃ N S E W : ℚ,
      (geoMulti cd rs fstr).2 = none ∧
      (geoMulti cd rs fstr).1.get "geographic_extent_rectangle_north" =
        some (.num N) ∧
      (geoMulti cd rs fstr).1.get "geographic_extent_rectangle_south" =
        some (.num S) ∧
      (geoMulti cd rs fstr).1.get "geographic_extent_rectangle_east" =
        some (.num E) ∧
      (geoMulti cd rs fstr).1.get "geographic_extent_rectangle_west" =
        some (.num W) ∧
      (∀ r ∈ rs, ∀ b : NumStr, (r.north = some b ∨ r.south = some b) →
        S ≤ b.val ∧ b.val ≤ N) ∧
      (∀ r ∈ rs, ∀ b : NumStr, (r.east = some b ∨ r.west = some b) →
        W ≤ b.val ∧ b.val ≤ E) ∧
      (∃ r ∈ rs, ∃ b : NumStr, (r.north = some b ∨ r.south = some b) ∧
        N = b.val) ∧
      (∃ r ∈ rs, ∃ b : NumStr, (r.north = some b ∨ r.south = some b) ∧
        S = b.val) ∧
      (∃ r ∈ rs, ∃ b : NumStr, (r.east = some b ∨ r.west = some b) ∧
        E = b.val) ∧
      (∃ r ∈ rs, ∃ b : NumStr, (r.east = some b ∨ r.west = some b) ∧
        W = b.val) := by
  have hlat : latValsOf rs ≠ [] :=
    latValsOf_ne_nil hne (fun r hr => (hall r hr).1)
  have hlon : lonValsOf rs ≠ [] :=
    lonValsOf_ne_nil hne (fun r hr => (hall r hr).2.2.1)
  obtain ⟨e, hgl⟩ := getLastQ_ne_nil hne
  have hemem : e ∈ rs := getLastQ_mem hgl
  obtain ⟨⟨nb, hnb⟩, ⟨sb, hsb⟩, ⟨eb, heb⟩, ⟨wb, hwb⟩⟩ := hall e hemem
  have hmulti : geoMulti cd rs fstr =
      geoMultiGeom (geoBoundsDoc cd rs fstr) rs := by
    rw [geoMulti, if_pos]
    constructor <;> simp [isEmpty_false_of_ne_nil, hlat, hlon]
  obtain ⟨g, hg⟩ := geoMultiGeom_ok (geoBoundsDoc cd rs fstr) hgl hnb hsb heb hwb
  refine ⟨pyMax (latValsOf rs), pyMin (latValsOf rs), pyMax (lonValsOf rs),
    pyMin (lonValsOf rs), ?_, ?_, ?_, ?_, ?_, ?_, ?_, ?_, ?_, ?_, ?_⟩
  · rw [hmulti, hg]
  · rw [hmulti, hg]; simp
  · rw [hmulti, hg]; simp
  · rw [hmulti, hg]; simp
  · rw [hmulti, hg]; simp
  · intro r hr b hb
    have hmem : b.val ∈ latValsOf rs := mem_latValsOf.mpr ⟨r, hr, b, hb, rfl⟩
    exact ⟨pyMin_le_of_mem hmem, le_pyMax_of_mem hmem⟩
  · intro r hr b hb
    have hmem : b.val ∈ lonValsOf rs := mem_lonValsOf.mpr ⟨r, hr, b, hb, rfl⟩
    exact ⟨pyMin_le_of_mem hmem, le_pyMax_of_mem hmem⟩
  · exact mem_latValsOf.mp (pyMax_mem hlat)
  · exact mem_latValsOf.mp (pyMin_mem hlat)
  · exact mem_lonValsOf.mp (pyMax_mem hlon)
  · exact mem_lonValsOf.mp (pyMin_mem hlon)

/-- **C7 (amended).** For a single rectangle with all four bounds present:
the envelope is the concatenation `ENVELOPE(west,east,north,south)` of the
raw bound strings; the geometry is the point `(east, north)` when
north = south and east = west, the (clockwise) 4-corner box polygon
`box(west, south, east, north, ccw=False)` when north ≠ south, and **no**
geometry field at all when north = south but east ≠ west (the source has no
`else` for that case); no error is raised.
(`MMD4SolR.tosolr`, lines 512–556.) -/
theorem tosolr_geo_single_geometry (cd : Doc) (n s e w : NumStr)
    (srs : Option String) :
    (geoSingle cd ⟨some n, some s, some e, some w, srs⟩).2 = none ∧
    (geoSingle cd ⟨some n, some s, some e, some w, srs⟩).1.get "bbox" =
      some (.s ("ENVELOPE(" ++ w.raw ++ "," ++ e.raw ++ "," ++ n.raw ++ ","
        ++ s.raw ++ ")")) ∧
    (s.val = n.val → e.val = w.val →
      (geoSingle cd ⟨some n, some s, some e, some w, srs⟩).1.get
        "polygon_rpt" = some (.geom (.point e.val n.val))) ∧
    (s.val ≠ n.val →
      (geoSingle cd ⟨some n, some s, some e, some w, srs⟩).1.get
        "polygon_rpt" = some (.geom (.boxCW w.val s.val e.val n.val))) ∧
    (s.val = n.val → e.val ≠ w.val →
      (geoSingle cd ⟨some n, some s, some e, some w, srs⟩).1.get
        "polygon_rpt" = cd.get "polygon_rpt") := by
  by_cases h1 : s.val = n.val
  · by_cases h2 : e.val = w.val
    · cases srs <;>
        refine ⟨by simp [geoSingle, h1, h2], by simp [geoSingle, h1, h2],
          fun _ _ => by simp [geoSingle, h1, h2],
          fun hc => absurd h1 hc, fun _ hc => absurd h2 hc⟩
    · cases srs <;>
        refine ⟨by simp [geoSingle, h1, h2], by simp [geoSingle, h1, h2],
          fun _ hc => absurd hc h2, fun hc => absurd h1 hc,
          fun _ _ => by simp [geoSingle, h1, h2]⟩
  · cases srs <;>
      refine ⟨by simp [geoSingle, h1], by simp [geoSingle, h1],
        fun hc _ => absurd hc h1, fun _ => by simp [geoSingle, h1],
        fun hc _ => absurd hc h1⟩

/-- **C7 counterexample.** For the single rectangle north = south = 60,
east = 20, west = 10 (a degenerate horizontal strip) the claim predicts a
4-corner rectangle polygon ("otherwise" case), but the code emits no
geometry at all: the record is processed without error and the produced
document has no `polygon_rpt` field. -/
theorem tosolr_geo_single_no_geom_on_degenerate_lat :
    (geoSingle [] ⟨some ⟨"60", 60⟩, some ⟨"60", 60⟩, some ⟨"20", 20⟩,
      some ⟨"10", 10⟩, none⟩).2 = none ∧
    (geoSingle [] ⟨some ⟨"60", 60⟩, some ⟨"60", 60⟩, some ⟨"20", 20⟩,
      some ⟨"10", 10⟩, none⟩).1.get "polygon_rpt" = none := by
  constructor <;> rfl

/-- **C7 witness.** The two spec examples: north = south = 60,
east = west = 10 derives the point (10, 60); north = 70, south = 60,
east = 20, west = 10 derives the envelope string `ENVELOPE(10,20,70,60)`
and the 4-corner box polygon. -/
theorem tosolr_geo_single_geometry_witness :
    ((geoSingle [] ⟨some ⟨"60", 60⟩, some ⟨"60", 60⟩, some ⟨"10", 10⟩,
        some ⟨"10", 10⟩, none⟩).1.get "polygon_rpt" =
      some (.geom (.point 10 60))) ∧
    ((geoSingle [] ⟨some ⟨"70", 70⟩, some ⟨"60", 60⟩, some ⟨"20", 20⟩,
        some ⟨"10", 10⟩, none⟩).1.get "bbox" =
      some (.s "ENVELOPE(10,20,70,60)")) ∧
    ((geoSingle [] ⟨some ⟨"70", 70⟩, some ⟨"60", 60⟩, some ⟨"20", 20⟩,
        some ⟨"10", 10⟩, none⟩).1.get "polygon_rpt" =
      some (.geom (.boxCW 10 60 20 70))) := by
  refine ⟨(tosolr_geo_single_geometry [] ⟨"60", 60⟩ ⟨"60", 60⟩ ⟨"10", 10⟩
      ⟨"10", 10⟩ none).2.2.1 (by norm_num) (by norm_num), ?_, ?_⟩
  · exact (tosolr_geo_single_geometry [] ⟨"70", 70⟩ ⟨"60", 60⟩ ⟨"20", 20⟩
      ⟨"10", 10⟩ none).2.1
  · exact (tosolr_geo_single_geometry [] ⟨"70", 70⟩ ⟨"60", 60⟩ ⟨"20", 20⟩
      ⟨"10", 10⟩ none).2.2.2.1 (by norm_num)

/-- **C8 witness.** The spec example: the rectangles
(n=70, s=60, e=20, w=10) and (n=80, s=65, e=25, w=5) flatten to the box
north = 80, south = 60, east = 25, west = 5 (checked both through the
general theorem and by direct evaluation). -/
theorem tosolr_geo_multi_enclosing_box_witness :
    (∃ N S E W : ℚ,
      (geoMulti [] [⟨some ⟨"70", 70⟩, some ⟨"60", 60⟩, some ⟨"20", 20⟩,
          some ⟨"10", 10⟩, none⟩, ⟨some ⟨"80", 80⟩, some ⟨"65", 65⟩,
          some ⟨"25", 25⟩, some ⟨"5", 5⟩, none⟩] (fun _ => "")).2 = none ∧
      (geoMulti [] [⟨some ⟨"70", 70⟩, some ⟨"60", 60⟩, some ⟨"20", 20⟩,
          some ⟨"10", 10⟩, none⟩, ⟨some ⟨"80", 80⟩, some ⟨"65", 65⟩,
          some ⟨"25", 25⟩, some ⟨"5", 5⟩, none⟩]
        (fun _ => "")).1.get "geographic_extent_rectangle_north" =
        some (.num N) ∧
      (geoMulti [] [⟨some ⟨"70", 70⟩, some ⟨"60", 60⟩, some ⟨"20", 20⟩,
          some ⟨"10", 10⟩, none⟩, ⟨some ⟨"80", 80⟩, some ⟨"65", 65⟩,
          some ⟨"25", 25⟩, some ⟨"5", 5⟩, none⟩]
        (fun _ => "")).1.get "geographic_extent_rectangle_south" =
        some (.num S) ∧
      (geoMulti [] [⟨some ⟨"70", 70⟩, some ⟨"60", 60⟩, some ⟨"20", 20⟩,
          some ⟨"10", 10⟩, none⟩, ⟨some ⟨"80", 80⟩, some ⟨"65", 65⟩,
          some ⟨"25", 25⟩, some ⟨"5", 5⟩, none⟩]
        (fun _ => "")).1.get "geographic_extent_rectangle_east" =
        some (.num E) ∧
      (geoMulti [] [⟨some ⟨"70", 70⟩, some ⟨"60", 60⟩, some ⟨"20", 20⟩,
          some ⟨"10", 10⟩, none⟩, ⟨some ⟨"80", 80⟩, some ⟨"65", 65⟩,
          some ⟨"25", 25⟩, some ⟨"5", 5⟩, none⟩]
        (fun _ => "")).1.get "geographic_extent_rectangle_west" =
        some (.num W) ∧
      (∀ r ∈ [(⟨some ⟨"70", 70⟩, some ⟨"60", 60⟩, some ⟨"20", 20⟩,
          some ⟨"10", 10⟩, none⟩ : Rect), ⟨some ⟨"80", 80⟩, some ⟨"65", 65⟩,
          some ⟨"25", 25⟩, some ⟨"5", 5⟩, none⟩],
        ∀ b : NumStr, (r.north = some b ∨ r.south = some b) →
          S ≤ b.val ∧ b.val ≤ N)) ∧
    (geoMulti [] [⟨some ⟨"70", 70⟩, some ⟨"60", 60⟩, some ⟨"20", 20⟩,
        some ⟨"10", 10⟩, none⟩, ⟨some ⟨"80", 80⟩, some ⟨"65", 65⟩,
        some ⟨"25", 25⟩, some ⟨"5", 5⟩, none⟩]
      (fun _ => "")).1.get "geographic_extent_rectangle_north" =
      some (.num 80) ∧
    (geoMulti [] [⟨some ⟨"70", 70⟩, some ⟨"60", 60⟩, some ⟨"20", 20⟩,
        some ⟨"10", 10⟩, none⟩, ⟨some ⟨"80", 80⟩, some ⟨"65", 65⟩,
        some ⟨"25", 25⟩, some ⟨"5", 5⟩, none⟩]
      (fun _ => "")).1.get "geographic_extent_rectangle_south" =
      some (.num 60) ∧
    (geoMulti [] [⟨some ⟨"70", 70⟩, some ⟨"60", 60⟩, some ⟨"20", 20⟩,
        some ⟨"10", 10⟩, none⟩, ⟨some ⟨"80", 80⟩, some ⟨"65", 65⟩,
        some ⟨"25", 25⟩, some ⟨"5", 5⟩, none⟩]
      (fun _ => "")).1.get "geographic_extent_rectangle_east" =
      some (.num 25) ∧
    (geoMulti [] [⟨some ⟨"70", 70⟩, some ⟨"60", 60⟩, some ⟨"20", 20⟩,
        some ⟨"10", 10⟩, none⟩, ⟨some ⟨"80", 80⟩, some ⟨"65", 65⟩,
        some ⟨"25", 25⟩, some ⟨"5", 5⟩, none⟩]
      (fun _ => "")).1.get "geographic_extent_rectangle_west" =
      some (.num 5) := by
  refine ⟨?_, by rfl, by rfl, by rfl, by rfl⟩
  obtain ⟨N, S, E, W, h⟩ := tosolr_geo_multi_enclosing_box []
    [⟨some ⟨"70", 70⟩, some ⟨"60", 60⟩, some ⟨"20", 20⟩, some ⟨"10", 10⟩,
      none⟩, ⟨some ⟨"80", 80⟩, some ⟨"65", 65⟩, some ⟨"25", 25⟩,
      some ⟨"5", 5⟩, none⟩] (fun _ => "") (by simp) (by
        intro r hr
        rcases List.mem_cons.mp hr with rfl | hr
        · exact ⟨⟨_, rfl⟩, ⟨_, rfl⟩, ⟨_, rfl⟩, ⟨_, rfl⟩⟩
        · rcases List.mem_cons.mp hr with rfl | hr
          · exact ⟨⟨_, rfl⟩, ⟨_, rfl⟩, ⟨_, rfl⟩, ⟨_, rfl⟩⟩
          · cases hr)
  exact ⟨N, S, E, W, h.1, h.2.1, h.2.2.1, h.2.2.2.1, h.2.2.2.2.1,
    h.2.2.2.2.2.1⟩

/-- **C9 (amended).** When no `mmd:geographic_extent` element is present
(or it is `None`), no bound fields are written at all — the document passes
through unchanged.  The world-extent fallback (north 90, south −90,
west −180, east 180) is emitted only in the repeated-extent branch, when
the present rectangles contribute no non-null bound values.
(`MMD4SolR.tosolr`, lines 460 and 476–511.) -/
theorem tosolr_geo_world_fallback (cd : Doc) (fstr : ℚ → String)
    (rs : List Rect)
    (hall : ∀ r ∈ rs, r.north = none ∧ r.south = none ∧ r.east = none ∧
      r.west = none) :
    geoSection cd none fstr = (cd, none) ∧
    (geoMulti cd rs fstr).2 = none ∧
    (geoMulti cd rs fstr).1.get "geographic_extent_rectangle_north" =
      some (.num 90) ∧
    (geoMulti cd rs fstr).1.get "geographic_extent_rectangle_south" =
      some (.num (-90)) ∧
    (geoMulti cd rs fstr).1.get "geographic_extent_rectangle_west" =
      some (.num (-180)) ∧
    (geoMulti cd rs fstr).1.get "geographic_extent_rectangle_east" =
      some (.num 180) := by
  have hlat : latValsOf rs = [] :=
    latValsOf_eq_nil (fun r hr => ⟨(hall r hr).1, (hall r hr).2.1⟩)
  have hfall : geoMulti cd rs fstr =
      ((((cd.set "geographic_extent_rectangle_north" (.num 90)).set
        "geographic_extent_rectangle_south" (.num (-90))).set
        "geographic_extent_rectangle_west" (.num (-180))).set
        "geographic_extent_rectangle_east" (.num 180), none) := by
    rw [geoMulti, if_neg]
    simp [hlat]
  refine ⟨rfl, ?_, ?_, ?_, ?_, ?_⟩ <;> rw [hfall] <;> simp

/-- **C9 counterexample.** A record with no geographic extent element at
all: the claim predicts the world-extent fallback
(`geographic_extent_rectangle_north = 90`), but the produced document has
no bound fields whatsoever (and no error is raised). -/
theorem tosolr_geo_absent_extent_no_fields :
    (geoSection [] none (fun _ => "")).2 = none ∧
    (geoSection [] none
      (fun _ => "")).1.get "geographic_extent_rectangle_north" = none ∧
    (geoSection [] none
      (fun _ => "")).1.get "geographic_extent_rectangle_south" = none := by
  refine ⟨rfl, rfl, rfl⟩

/-- **C9 witness.** The amended fallback applied at a record whose repeated
extent list holds one rectangle with all bounds null. -/
theorem tosolr_geo_world_fallback_witness :
    geoSection [] none (fun _ => "") = ([], none) ∧
    (geoMulti [] [⟨none, none, none, none, none⟩]
      (fun _ => "")).1.get "geographic_extent_rectangle_north" =
      some (.num 90) := by
  have h := tosolr_geo_world_fallback [] (fun _ => "")
    [⟨none, none, none, none, none⟩] (by
      intro r hr
      rcases List.mem_cons.mp hr with rfl | hr
      · exact ⟨rfl, rfl, rfl, rfl⟩
      · cases hr)
  exact ⟨h.1, h.2.2.1⟩

/-! ## The SolR store and `IndexMMD.index_record` (lines 946–1023)

The store client (`pysolr`) is an external collaborator; its observable
behaviour on this code path: `add` stores one document per unique `id`,
replacing any previous document with that id, and the server stamps a
`_version_` token onto every stored document.  `search('id:' + x)` returns
the stored documents whose `id` field equals `x`. -/

/-- Two documents with the same string `id` field. -/
def sameId (a b : Doc) : Bool :=
  match a.get "id", b.get "id" with
  | some (.s x), some (.s y) => x = y
  | _, _ => false

/-- `solrc.add([d])`: replace-by-id and stamp `_version_`. -/
def addDoc (store : List Doc) (d : Doc) : List Doc :=
  (store.filter (fun x => !(sameId x d))) ++ [d.set "_version_" (.s "v")]

/-- `solrc.search('id:' + x)`: the stored documents whose id equals `x`. -/
def searchId (store : List Doc) (x : String) : List Doc :=
  store.filter (fun d => (d.get "id").getD .null |>.eqStr x)

/-- The level branch of `index_record` (lines 965–971): level 1 or `None`
sets `dataset_type`/`isParent`, level 2 sets `dataset_type`, any other
level only logs `'Invalid level given: ... Hence terminating'` and leaves
the record untouched (processing continues). -/
def levelStep (rec : Doc) (level : Option Int) : Doc :=
  if level = some 1 ∨ level = none then
    (rec.set "dataset_type" (.s "Level-1")).set "isParent" (.s "false")
  else if level = some 2 then
    rec.set "dataset_type" (.s "Level-2")
  else rec

/-- The feature-type branch (lines 976–987): `feat` is the oracle for the
external `get_feature_type` (`none` = the call raised and was caught); a
truthy result is recorded under `feature_type`. -/
def featStep (rec : Doc) (feat : Option String) : Doc :=
  if rec.hasKey "data_access_url_opendap" then
    match feat with
    | some f => if f ≠ "" then rec.set "feature_type" (.s f) else rec
    | none => rec
  else rec

/-- The thumbnail branch (lines 990–1009): `thumb` is the oracle for the
external `add_thumbnail` (`none`/empty = falsy, upon which the
`data_access_url_ogc_wms` entry is deleted from the record). -/
def thumbStep (rec : Doc) (addThumbnail : Bool) (thumb : Option String) :
    Doc :=
  if rec.hasKey "data_access_url_ogc_wms" && addThumbnail then
    match thumb with
    | some t => if t ≠ "" then rec.set "thumbnail_data" (.s t)
                else rec.pop "data_access_url_ogc_wms"
    | none => rec.pop "data_access_url_ogc_wms"
  else rec

/-- `IndexMMD.index_record` (lines 946–1023): level branch, Inactive skip,
feature type, `self.id = input_record['id']`, thumbnail branch, then
`solrc.add`; `addOk` tells whether the external add succeeded (on failure
the exception is caught and `False` returned). -/
def index_record (store : List Doc) (rec : Doc) (addThumbnail : Bool)
    (level : Option Int) (feat : Option String) (thumb : Option String)
    (addOk : Bool) : Except PyErr (List Doc × Bool) :=
  let rec1 := levelStep rec level
  match rec1.get "metadata_status" with
  | none => .error .keyError
  | some st =>
      if st.eqStr "Inactive" then .ok (store, false)
      else
        let rec2 := featStep rec1 feat
        match rec2.get "id" with
        | none => .error .keyError
        | some _ =>
            let rec3 := thumbStep rec2 addThumbnail thumb
            if addOk then .ok (addDoc store rec3, true)
            else .ok (store, false)

theorem levelStep_get_ne (rec : Doc) (level : Option Int) (k : String)
    (h1 : k ≠ "dataset_type") (h2 : k ≠ "isParent") :
    (levelStep rec level).get k = rec.get k := by
  rw [levelStep]
  split
  · simp [h1, h2]
  · split <;> simp [h1]

theorem levelStep_invalid (rec : Doc) (level : Option Int)
    (hl1 : level ≠ some 1) (hln : level ≠ none) (hl2 : level ≠ some 2) :
    levelStep rec level = rec := by
  rw [levelStep, if_neg, if_neg hl2]
  rintro (h | h) <;> [exact hl1 h; exact hln h]

theorem featStep_get_ne (rec : Doc) (feat : Option String) (k : String)
    (h1 : k ≠ "feature_type") : (featStep rec feat).get k = rec.get k := by
  unfold featStep
  split
  · split
    · split <;> simp [h1]
    · rfl
  · rfl

theorem thumbStep_get_ne (rec : Doc) (b : Bool) (thumb : Option String)
    (k : String) (h1 : k ≠ "thumbnail_data")
    (h2 : k ≠ "data_access_url_ogc_wms") :
    (thumbStep rec b thumb).get k = rec.get k := by
  unfold thumbStep
  split
  · split
    · split <;> simp [h1, h2]
    · simp [h2]
  · rfl

/-- **C4.** A single rectangle with a null bound is fatal for the record:
the transformation stops with the distinct `Warning('Missing spatial
bounds')`, with `metadata_status` forced to `'Inactive'` on the document
under construction; and the indexing step returns `False` without touching
the store for any record whose `metadata_status` is `'Inactive'`
(`MMD4SolR.tosolr` lines 512–518, `IndexMMD.index_record` lines 973–975). -/
theorem missing_bounds_fatal_and_inactive_skipped (cd : Doc) (r : Rect)
    (hmiss : r.north = none ∨ r.south = none ∨ r.east = none ∨ r.west = none)
    (store : List Doc) (rec : Doc) (addT : Bool) (level : Option Int)
    (feat thumb : Option String) (addOk : Bool)
    (hinact : rec.get "metadata_status" = some (.s "Inactive")) :
    geoSingle cd r =
      (cd.set "metadata_status" (.s "Inactive"),
        some .missingSpatialBounds) ∧
    index_record store rec addT level feat thumb addOk = .ok (store, false)
    := by
  constructor
  · rw [geoSingle, if_pos hmiss]
  · have hst : (levelStep rec level).get "metadata_status" =
        some (.s "Inactive") := by
      rw [levelStep_get_ne rec level _ (by decide) (by decide), hinact]
    rw [index_record, hst]
    simp [Val.eqStr]

/-- **C4 witness.** A concrete single rectangle with `east = None` and a
concrete Inactive record. -/
theorem missing_bounds_fatal_and_inactive_skipped_witness :
    geoSingle [] ⟨some ⟨"70", 70⟩, some ⟨"60", 60⟩, none, some ⟨"10", 10⟩,
        none⟩ =
      (Doc.set [] "metadata_status" (.s "Inactive"),
        some .missingSpatialBounds) ∧
    index_record [] [("metadata_status", .s "Inactive")] false (some 1)
      none none true = .ok ([], false) :=
  missing_bounds_fatal_and_inactive_skipped []
    ⟨some ⟨"70", 70⟩, some ⟨"60", 60⟩, none, some ⟨"10", 10⟩, none⟩
    (Or.inr (Or.inr (Or.inl rfl))) [] [("metadata_status", .s "Inactive")]
    false (some 1) none none true rfl

/-- **C10.** For an active record, an invalid level (outside {1, 2, None})
is only logged: the record is still processed, no `dataset_type` and no
`isParent` field is set, the record is added to the store and the
operation returns `True` on a successful add
(`IndexMMD.index_record`, lines 965–971 and 1011–1023). -/
theorem invalid_level_still_indexed (store : List Doc) (rec : Doc)
    (addT : Bool) (level : Option Int) (feat thumb : Option String)
    (hl1 : level ≠ some 1) (hln : level ≠ none) (hl2 : level ≠ some 2)
    (st : String) (hst : rec.get "metadata_status" = some (.s st))
    (hstne : st ≠ "Inactive") (hid : (rec.get "id").isSome)
    (hdt : rec.get "dataset_type" = none)
    (hip : rec.get "isParent" = none) :
    ∃ d' : Doc,
      index_record store rec addT level feat thumb true =
        .ok (addDoc store d', true) ∧
      d'.get "dataset_type" = none ∧ d'.get "isParent" = none := by
  have hlv : levelStep rec level = rec := levelStep_invalid rec level hl1 hln hl2
  have hid2 : ((featStep rec feat).get "id").isSome := by
    rw [featStep_get_ne rec feat _ (by decide)]; exact hid
  obtain ⟨idv, hidv⟩ := Option.isSome_iff_exists.mp hid2
  refine ⟨thumbStep (featStep rec feat) addT thumb, ?_, ?_, ?_⟩
  · rw [index_record, hlv, hst]
    have : Val.eqStr (.s st) "Inactive" = false := by
      simp [Val.eqStr, hstne]
    simp only [this, Bool.false_eq_true, if_false, hidv, if_true]
  · rw [thumbStep_get_ne _ _ _ _ (by decide) (by decide),
      featStep_get_ne _ _ _ (by decide), hdt]
  · rw [thumbStep_get_ne _ _ _ _ (by decide) (by decide),
      featStep_get_ne _ _ _ (by decide), hip]

/-- **C10 witness.** A concrete active record indexed with the invalid
level 3: no `dataset_type`/`isParent` is set and the add succeeds. -/
theorem invalid_level_still_indexed_witness :
    ∃ d' : Doc,
      index_record [] [("metadata_status", .s "Active"), ("id", .s "x")]
        false (some 3) none none true = .ok (addDoc [] d', true) ∧
      d'.get "dataset_type" = none ∧ d'.get "isParent" = none :=
  invalid_level_still_indexed [] [("metadata_status", .s "Active"),
    ("id", .s "x")] false (some 3) none none (by decide) (by decide)
    (by decide) "Active" rfl (by decide) rfl rfl rfl

/-! ## Vocabulary validator: required elements (`MMD4SolR.check_mmd`,
lines 103–133) and the title selection of `MMD4SolR.tosolr`
(lines 392–412) -/

/-- The fixed required-element list (lines 103–114, dict insertion order). -/
def mmd_requirements : List String :=
  ["mmd:metadata_version", "mmd:metadata_identifier", "mmd:title",
   "mmd:abstract", "mmd:metadata_status", "mmd:dataset_production_status",
   "mmd:collection", "mmd:last_metadata_update", "mmd:iso_topic_category",
   "mmd:keywords"]

/-- Python `v is None`. -/
def Val.isNull : Val → Bool
  | .null => true
  | _ => false

/-- One iteration of the required-element check (lines 119–133), translated
with the source's duplicated condition: the outer
`if requirement in self.mydoc['mmd:mmd']` has no else branch, and the inner
else (which would set an absent element to `'Unknown'`) re-tests the
identical condition and is therefore unreachable. -/
def checkRequiredOne (d : Doc) (req : String) : Doc :=
  if d.hasKey req then
    (if d.hasKey req then
      (match d.get req with
       | some .null => d.set req (.s "Unknown")
       | _ => d)
     else d.set req (.s "Unknown"))
  else d

/-- The required-element loop of `check_mmd` (lines 119–133). -/
def check_mmd_required (d : Doc) : Doc :=
  mmd_requirements.foldl checkRequiredOne d

/-- Python `str()` of a scalar value.  Containers and floats go through
Python's repr, which is external formatting never exercised by the claims
dealt with here; they are mapped to the empty string. -/
def pyStr : Val → String
  | .s v => v
  | .null => "None"
  | _ => ""

/-- The `isinstance(title, list)` branch (lines 393–402): select the
English-tagged variant; `e['#text']` on a dict without that key is a
KeyError, a non-dict list entry makes the `in`/subscript operations fail.
(On a string element, `'@xml:lang' in e` is substring containment and
`e['@xml:lang']` a TypeError.) -/
def titleList (out : Doc) (es : List Val) : Except PyErr Doc :=
  es.foldlM (fun o e =>
    match e with
    | .dict kvs =>
        match Doc.get kvs "@xml:lang" with
        | some lv =>
            if lv.eqStr "en" then
              match Doc.get kvs "#text" with
              | some tv => .ok (o.set "title" tv)
              | none => .error .keyError
            else .ok o
        | none =>
            match Doc.get kvs "@lang" with
            | some lv =>
                if lv.eqStr "en" then
                  match Doc.get kvs "#text" with
                  | some tv => .ok (o.set "title" tv)
                  | none => .error .keyError
                else .ok o
            | none => .ok o
    | .s v =>
        if strIn "@xml:lang" v then .error .typeError
        else if strIn "@lang" v then .error .typeError
        else .ok o
    | _ => .error .typeError) out

/-- The `isinstance(title, dict)` branch (lines 404–410): two successive
`if`s for `@xml:lang` and `@lang`. -/
def titleSingleDict (out : Doc) (kvs : Doc) : Except PyErr Doc := do
  let o ← (match Doc.get kvs "@xml:lang" with
    | some lv =>
        if lv.eqStr "en" then
          match Doc.get kvs "#text" with
          | some tv => Except.ok (out.set "title" tv)
          | none => Except.error PyErr.keyError
        else Except.ok out
    | none => Except.ok out)
  match Doc.get kvs "@lang" with
  | some lv =>
      if lv.eqStr "en" then
        match Doc.get kvs "#text" with
        | some tv => Except.ok (o.set "title" tv)
        | none => Except.error PyErr.keyError
      else Except.ok o
  | none => Except.ok o

/-- The title section of `tosolr` (lines 392–412): subscripting
`self.mydoc['mmd:mmd']['mmd:title']` raises KeyError when the element is
absent; a plain scalar is stored through `str(...)`. -/
def titleSection (mmd : Doc) (out : Doc) : Except PyErr Doc :=
  match mmd.get "mmd:title" with
  | none => .error .keyError
  | some (.list es) => titleList out es
  | some (.dict kvs) => titleSingleDict out kvs
  | some v => .ok (out.set "title" (.s (pyStr v)))

/-- **C5.** Evaluation of the validator and the title assembly at the
failing input (a record with `mmd:title` entirely absent) and at the
intended input (a record whose `mmd:title` is present but empty/None):
for the absent element the validator leaves the record unchanged — the
`else` that would substitute `'Unknown'` is unreachable because it re-tests
the already-true membership condition — and the assembler then raises
`KeyError`; only a present-but-None element receives the `'Unknown'`
sentinel, which the assembler stores without raising. -/
theorem required_absent_title_not_defaulted :
    (check_mmd_required
      [("mmd:metadata_identifier", .s "x"),
       ("mmd:metadata_status", .s "Active")]).get "mmd:title" = none ∧
    titleSection (check_mmd_required
      [("mmd:metadata_identifier", .s "x"),
       ("mmd:metadata_status", .s "Active")]) [] = .error .keyError ∧
    (check_mmd_required
      [("mmd:metadata_identifier", .s "x"),
       ("mmd:title", Val.null)]).get "mmd:title" = some (.s "Unknown") ∧
    titleSection (check_mmd_required
      [("mmd:metadata_identifier", .s "x"),
       ("mmd:title", Val.null)]) [] = .ok [("title", .s "Unknown")] := by
  refine ⟨rfl, rfl, rfl, rfl⟩

/-! ## Repeated-group flattener: personnel
(`MMD4SolR.tosolr`, lines 593–649) -/

/-- The role lookup table (lines 303–307, dict insertion order). -/
def personnel_role_LUT : List (String × String) :=
  [("Investigator", "investigator"), ("Technical contact", "technical"),
   ("Metadata author", "metadata_author"),
   ("Data center contact", "datacenter")]

/-- Assoc lookup in a string-to-string table. -/
def lookupStr : List (String × String) → String → Option String
  | [], _ => none
  | (k, v) :: rest, x => if k = x then some v else lookupStr rest x

/-- `role not in personnel_role_LUT` (a dict key test): a list or dict role
is unhashable (TypeError); every other non-string value is hashable and
simply not a key of the table. -/
def roleLut : Val → Except PyErr (Option String)
  | .s r => .ok (lookupStr personnel_role_LUT r)
  | .list _ => .error .typeError
  | .dict _ => .error .typeError
  | _ => .ok none

/-- A personnel element is its xmltodict dict. -/
abbrev PEntry := Doc

/-- Python `mydict[key].append(v)` on the flattened families: KeyError when
the key was never initialised, AttributeError when its value is no list. -/
def Doc.appendTo (d : Doc) (k : String) (v : Val) : Except PyErr Doc :=
  match d.get k with
  | some (.list xs) => .ok (d.set k (.list (xs ++ [v])))
  | some _ => .error .attrError
  | none => .error .keyError

/-- `personnel_<code>_<sub>`. -/
def famKey (rc sub : String) : String := "personnel_" ++ rc ++ "_" ++ sub

/-- The `contact_address` sub-dict handling (lines 635–641); iterating a
non-dict value fails with a Python exception either at `el.split` or at the
string subscript. -/
def procAddr (rc : String) (d : Doc) : Val → Except PyErr Doc
  | .dict kvs => kvs.foldlM (fun d kv =>
      if lastComp kv.1 = "address" then
        d.appendTo (famKey rc "address") kv.2
      else
        d.appendTo (famKey rc ("address_" ++ lastComp kv.1)) kv.2) d
  | _ => .error .typeError

/-- Processing of one key/value pair of an accepted personnel element
(lines 628–649): `role` and `name`/`organisation` also feed the unqualified
facet families; every other sub-field goes to
`personnel_<code>_<subfield>`. -/
def procPair (rc : String) (d : Doc) (kv : String × Val) :
    Except PyErr Doc :=
  if lastComp kv.1 = "role" then do
    let d1 ← d.appendTo (famKey rc "role") kv.2
    d1.appendTo "personnel_role" kv.2
  else if lastComp kv.1 = "contact_address" then procAddr rc d kv.2
  else if lastComp kv.1 = "name" then do
    let d1 ← d.appendTo (famKey rc "name") kv.2
    d1.appendTo "personnel_name" kv.2
  else if lastComp kv.1 = "organisation" then do
    let d1 ← d.appendTo (famKey rc "organisation") kv.2
    d1.appendTo "personnel_organisation" kv.2
  else d.appendTo (famKey rc (lastComp kv.1)) kv.2

/-- The fill loop (lines 620–649).  NOTE: a falsy (`if not role:`) or
unknown role hits a `break`, which terminates the WHOLE loop and silently
drops every remaining personnel element; `personnel['mmd:role']` on an
element without the key is a KeyError. -/
def fillPersonnel (d : Doc) : List PEntry → Except PyErr Doc
  | [] => .ok d
  | p :: rest =>
      match p.get "mmd:role" with
      | none => .error .keyError
      | some rv =>
          if pyFalsy rv then .ok d
          else
            match roleLut rv with
            | .error e => .error e
            | .ok none => .ok d
            | .ok (some rc) => do
                let d1 ← p.foldlM (procPair rc) d
                fillPersonnel d1 rest

/-- The role codes in table order. -/
def roleCodes : List String :=
  ["investigator", "technical", "metadata_author", "datacenter"]

/-- The per-role sub-field suffixes in initialisation order
(lines 606–617). -/
def personnelSubs : List String :=
  ["role", "name", "email", "phone", "fax", "organisation", "address",
   "address_city", "address_province_or_state", "address_postal_code",
   "address_country"]

/-- Every list-initialised personnel family, in source order: the three
facet keys (lines 601–603), then the role-qualified families. -/
def personnelFams : List String :=
  ["personnel_role", "personnel_name", "personnel_organisation"] ++
    roleCodes.flatMap (fun rc => personnelSubs.map (famKey rc))

/-- The initialisation of the empty families (lines 600–617). -/
def personnelInit (d : Doc) : Doc :=
  personnelFams.foldl (fun d k => d.set k (.list [])) d

/-- The personnel section (lines 594–649): one-or-many coercion,
initialisation, fill (absent element: section skipped). -/
def personnelSection (d : Doc) (ps : Option (OneOrMany PEntry)) :
    Except PyErr Doc :=
  match ps with
  | none => .ok d
  | some x => fillPersonnel (personnelInit d) x.toList

/-- Length of a flattened family. -/
def countFam (d : Doc) (k : String) : Nat :=
  match d.get k with
  | some (.list xs) => xs.length
  | _ => 0

/-- The canonical role code of a personnel element, when accepted. -/
def entryRC (p : PEntry) : Option String :=
  match p.get "mmd:role" with
  | some (.s r) => lookupStr personnel_role_LUT r
  | _ => none

/-- The sub-field keys whose processing stays inside the initialised
families (no `contact_address`, no unknown sub-fields). -/
def safePersonnelKeys : List String :=
  ["mmd:role", "mmd:name", "mmd:email", "mmd:organisation", "mmd:phone",
   "mmd:fax"]

/-- A well-formed personnel element for the cardinality statements: an
accepted role, only standard sub-field keys, no duplicate keys, and both a
name and an email sub-field. -/
def VEntry (p : PEntry) : Prop :=
  (entryRC p).isSome ∧ (∀ kv ∈ p, kv.1 ∈ safePersonnelKeys) ∧
  (p.map Prod.fst).Nodup ∧ (p.get "mmd:name").isSome ∧
  (p.get "mmd:email").isSome

instance (p : PEntry) : Decidable (VEntry p) := by
  unfold VEntry
  infer_instance

/-- The family keys a pair with the given element key appends to. -/
def pairTargets (rc : String) (k : String) : List String :=
  if lastComp k = "role" then [famKey rc "role", "personnel_role"]
  else if lastComp k = "contact_address" then []
  else if lastComp k = "name" then [famKey rc "name", "personnel_name"]
  else if lastComp k = "organisation" then
    [famKey rc "organisation", "personnel_organisation"]
  else [famKey rc (lastComp k)]

/-- Occurrence count of a key in a target list. -/
def tcount : List String → String → Nat
  | [], _ => 0
  | x :: xs, K => (if x = K then 1 else 0) + tcount xs K

/-- Elements a pair list appends to family `K`. -/
def pairsDelta (rc K : String) : List (String × Val) → Nat
  | [] => 0
  | kv :: rest => tcount (pairTargets rc kv.1) K + pairsDelta rc K rest

/-- Elements the whole fill loop appends to family `K` (accepted-role
entries only; the code of the role is that of the entry). -/
def fillDelta : List PEntry → String → Nat
  | [], _ => 0
  | p :: rest, K =>
      pairsDelta ((entryRC p).getD "") K p + fillDelta rest K

/-- A family key holds a list value. -/
def IsListAt (d : Doc) (k : String) : Prop :=
  ∃ xs, d.get k = some (.list xs)

/-- All personnel families are initialised to lists. -/
def Inited (d : Doc) : Prop := ∀ k ∈ personnelFams, IsListAt d k

theorem get_eq_some_mem {d : Doc} {k : String} {v : Val}
    (h : d.get k = some v) : (k, v) ∈ d := by
  induction d with
  | nil => cases h
  | cons kv rest ih =>
      rw [Doc.get] at h
      by_cases hk : kv.1 = k
      · rw [if_pos hk] at h
        injection h with h
        subst h
        obtain ⟨k1, v1⟩ := kv
        cases hk
        exact List.mem_cons_self _ _
      · rw [if_neg hk] at h
        exact List.mem_cons_of_mem _ (ih h)

theorem isListAt_set_list (d : Doc) (k : String) (ys : List Val)
    {K : String} (h : IsListAt d K) : IsListAt (d.set k (.list ys)) K := by
  by_cases hk : K = k
  · subst hk; exact ⟨ys, by simp⟩
  · obtain ⟨xs, hxs⟩ := h; exact ⟨xs, by simp [hk, hxs]⟩

theorem appendTo_ok {d : Doc} {k : String} {xs : List Val} (v : Val)
    (h : d.get k = some (.list xs)) :
    d.appendTo k v = .ok (d.set k (.list (xs ++ [v]))) := by
  rw [Doc.appendTo, h]

theorem appendTo_count {d : Doc} {k : String} (hk : IsListAt d k) (v : Val) :
    ∃ d', d.appendTo k v = .ok d' ∧
      (∀ K, countFam d' K = countFam d K + (if k = K then 1 else 0)) ∧
      (∀ K, IsListAt d K → IsListAt d' K) := by
  obtain ⟨xs, hxs⟩ := hk
  refine ⟨d.set k (.list (xs ++ [v])), appendTo_ok v hxs, ?_, ?_⟩
  · intro K
    by_cases h : k = K
    · subst h; simp [countFam, hxs]
    · have hne : K ≠ k := fun hh => h hh.symm
      simp [countFam, hne, h]
  · intro K hK; exact isListAt_set_list d k _ hK

theorem tcount_pair (a b K : String) :
    tcount [a, b] K = (if a = K then 1 else 0) + (if b = K then 1 else 0) := by
  simp [tcount]

theorem tcount_single (a K : String) :
    tcount [a] K = (if a = K then 1 else 0) := by
  simp [tcount]

theorem famKey_mem_fams (rc : String) (hrc : rc ∈ roleCodes) (sub : String)
    (hsub : sub ∈ personnelSubs) : famKey rc sub ∈ personnelFams := by
  rw [personnelFams]
  refine List.mem_append_right _ ?_
  rw [List.mem_flatMap]
  exact ⟨rc, hrc, List.mem_map_of_mem _ hsub⟩

theorem procPair_count {rc : String} (hrc : rc ∈ roleCodes) {d : Doc}
    (hd : Inited d) (kv : String × Val) (hk : kv.1 ∈ safePersonnelKeys) :
    ∃ d', procPair rc d kv = .ok d' ∧
      (∀ K, countFam d' K = countFam d K + tcount (pairTargets rc kv.1) K) ∧
      Inited d' := by
  simp only [safePersonnelKeys, List.mem_cons, List.not_mem_nil, or_false]
    at hk
  rcases hk with h | h | h | h | h | h
  -- mmd:role
  · obtain ⟨d1, h1, hc1, hp1⟩ :=
      appendTo_count (hd _ (famKey_mem_fams rc hrc "role"
        (by simp [personnelSubs]))) kv.2
    obtain ⟨d2, h2, hc2, hp2⟩ :=
      appendTo_count (hp1 _ (hd "personnel_role" (by simp [personnelFams])))
        kv.2
    refine ⟨d2, ?_, ?_, fun k hk => hp2 _ (hp1 _ (hd k hk))⟩
    · rw [procPair, if_pos (show lastComp kv.1 = "role" by rw [h]; rfl), h1]
      exact h2
    · intro K
      rw [hc2, hc1, h]
      have hpt : pairTargets rc "mmd:role" =
        [famKey rc "role", "personnel_role"] := rfl
      rw [hpt, tcount_pair]
      omega
  -- mmd:name
  · obtain ⟨d1, h1, hc1, hp1⟩ :=
      appendTo_count (hd _ (famKey_mem_fams rc hrc "name"
        (by simp [personnelSubs]))) kv.2
    obtain ⟨d2, h2, hc2, hp2⟩ :=
      appendTo_count (hp1 _ (hd "personnel_name" (by simp [personnelFams])))
        kv.2
    refine ⟨d2, ?_, ?_, fun k hk => hp2 _ (hp1 _ (hd k hk))⟩
    · rw [procPair, if_neg (show ¬lastComp kv.1 = "role" by rw [h]; decide),
        if_neg (show ¬lastComp kv.1 = "contact_address" by rw [h]; decide),
        if_pos (show lastComp kv.1 = "name" by rw [h]; rfl), h1]
      exact h2
    · intro K
      rw [hc2, hc1, h]
      have hpt : pairTargets rc "mmd:name" =
        [famKey rc "name", "personnel_name"] := rfl
      rw [hpt, tcount_pair]
      omega
  -- mmd:email
  · obtain ⟨d1, h1, hc1, hp1⟩ :=
      appendTo_count (hd _ (famKey_mem_fams rc hrc "email"
        (by simp [personnelSubs]))) kv.2
    refine ⟨d1, ?_, ?_, fun k hk => hp1 _ (hd k hk)⟩
    · rw [procPair, if_neg (show ¬lastComp kv.1 = "role" by rw [h]; decide),
        if_neg (show ¬lastComp kv.1 = "contact_address" by rw [h]; decide),
        if_neg (show ¬lastComp kv.1 = "name" by rw [h]; decide),
        if_neg (show ¬lastComp kv.1 = "organisation" by rw [h]; decide), h]
      exact h1
    · intro K
      rw [hc1, h]
      have hpt : pairTargets rc "mmd:email" = [famKey rc "email"] := rfl
      rw [hpt, tcount_single]
  -- mmd:organisation
  · obtain ⟨d1, h1, hc1, hp1⟩ :=
      appendTo_count (hd _ (famKey_mem_fams rc hrc "organisation"
        (by simp [personnelSubs]))) kv.2
    obtain ⟨d2, h2, hc2, hp2⟩ :=
      appendTo_count
        (hp1 _ (hd "personnel_organisation" (by simp [personnelFams]))) kv.2
    refine ⟨d2, ?_, ?_, fun k hk => hp2 _ (hp1 _ (hd k hk))⟩
    · rw [procPair, if_neg (show ¬lastComp kv.1 = "role" by rw [h]; decide),
        if_neg (show ¬lastComp kv.1 = "contact_address" by rw [h]; decide),
        if_neg (show ¬lastComp kv.1 = "name" by rw [h]; decide),
        if_pos (show lastComp kv.1 = "organisation" by rw [h]; rfl), h1]
      exact h2
    · intro K
      rw [hc2, hc1, h]
      have hpt : pairTargets rc "mmd:organisation" =
        [famKey rc "organisation", "personnel_organisation"] := rfl
      rw [hpt, tcount_pair]
      omega
  -- mmd:phone
  · obtain ⟨d1, h1, hc1, hp1⟩ :=
      appendTo_count (hd _ (famKey_mem_fams rc hrc "phone"
        (by simp [personnelSubs]))) kv.2
    refine ⟨d1, ?_, ?_, fun k hk => hp1 _ (hd k hk)⟩
    · rw [procPair, if_neg (show ¬lastComp kv.1 = "role" by rw [h]; decide),
        if_neg (show ¬lastComp kv.1 = "contact_address" by rw [h]; decide),
        if_neg (show ¬lastComp kv.1 = "name" by rw [h]; decide),
        if_neg (show ¬lastComp kv.1 = "organisation" by rw [h]; decide), h]
      exact h1
    · intro K
      rw [hc1, h]
      have hpt : pairTargets rc "mmd:phone" = [famKey rc "phone"] := rfl
      rw [hpt, tcount_single]
  -- mmd:fax
  · obtain ⟨d1, h1, hc1, hp1⟩ :=
      appendTo_count (hd _ (famKey_mem_fams rc hrc "fax"
        (by simp [personnelSubs]))) kv.2
    refine ⟨d1, ?_, ?_, fun k hk => hp1 _ (hd k hk)⟩
    · rw [procPair, if_neg (show ¬lastComp kv.1 = "role" by rw [h]; decide),
        if_neg (show ¬lastComp kv.1 = "contact_address" by rw [h]; decide),
        if_neg (show ¬lastComp kv.1 = "name" by rw [h]; decide),
        if_neg (show ¬lastComp kv.1 = "organisation" by rw [h]; decide), h]
      exact h1
    · intro K
      rw [hc1, h]
      have hpt : pairTargets rc "mmd:fax" = [famKey rc "fax"] := rfl
      rw [hpt, tcount_single]

theorem foldPairs_count {rc : String} (hrc : rc ∈ roleCodes)
    (ps : List (String × Val)) :
    ∀ d : Doc, Inited d → (∀ kv ∈ ps, kv.1 ∈ safePersonnelKeys) →
    ∃ d', ps.foldlM (procPair rc) d = .ok d' ∧
      (∀ K, countFam d' K = countFam d K + pairsDelta rc K ps) ∧
      Inited d' := by
  induction ps with
  | nil =>
      intro d hd _
      exact ⟨d, rfl, by simp [pairsDelta], hd⟩
  | cons kv rest ih =>
      intro d hd hsafe
      obtain ⟨d1, h1, hc1, hi1⟩ := procPair_count hrc hd kv
        (hsafe kv (List.mem_cons_self _ _))
      obtain ⟨d', h2, hc2, hi2⟩ := ih d1 hi1
        (fun kv' hkv' => hsafe kv' (List.mem_cons_of_mem _ hkv'))
      refine ⟨d', ?_, ?_, hi2⟩
      · rw [List.foldlM_cons, h1]
        exact h2
      · intro K
        rw [hc2, hc1, pairsDelta]
        omega

theorem ventry_role {p : PEntry} (h : (entryRC p).isSome) :
    ∃ r rc, p.get "mmd:role" = some (.s r) ∧
      lookupStr personnel_role_LUT r = some rc ∧ entryRC p = some rc := by
  unfold entryRC at h ⊢
  cases hg : p.get "mmd:role" with
  | none =>
      rw [hg] at h
      exact Bool.noConfusion h
  | some v =>
      rw [hg] at h
      cases v with
      | s r =>
          obtain ⟨rc, hrc⟩ := Option.isSome_iff_exists.mp h
          exact ⟨r, rc, rfl, hrc, hrc⟩
      | null => exact Bool.noConfusion h
      | num q => exact Bool.noConfusion h
      | numT q => exact Bool.noConfusion h
      | list xs => exact Bool.noConfusion h
      | dict kvs => exact Bool.noConfusion h
      | geom g => exact Bool.noConfusion h

theorem lookupStr_LUT_mem {r rc : String}
    (h : lookupStr personnel_role_LUT r = some rc) : rc ∈ roleCodes := by
  rw [personnel_role_LUT] at h
  rw [lookupStr] at h
  by_cases h1 : "Investigator" = r
  · rw [if_pos h1] at h; injection h with h; subst h; decide
  · rw [if_neg h1, lookupStr] at h
    by_cases h2 : "Technical contact" = r
    · rw [if_pos h2] at h; injection h with h; subst h; decide
    · rw [if_neg h2, lookupStr] at h
      by_cases h3 : "Metadata author" = r
      · rw [if_pos h3] at h; injection h with h; subst h; decide
      · rw [if_neg h3, lookupStr] at h
        by_cases h4 : "Data center contact" = r
        · rw [if_pos h4] at h; injection h with h; subst h; decide
        · rw [if_neg h4, lookupStr] at h; cases h

theorem lookupStr_LUT_ne_empty {r rc : String}
    (h : lookupStr personnel_role_LUT r = some rc) : r ≠ "" := by
  intro hr
  subst hr
  rw [show lookupStr personnel_role_LUT "" = none from rfl] at h
  cases h

theorem fill_count (es : List PEntry) :
    ∀ d : Doc, Inited d → (∀ p ∈ es, VEntry p) →
    ∃ d', fillPersonnel d es = .ok d' ∧
      (∀ K, countFam d' K = countFam d K + fillDelta es K) ∧ Inited d' := by
  induction es with
  | nil =>
      intro d hd _
      exact ⟨d, rfl, by simp [fillDelta], hd⟩
  | cons p rest ih =>
      intro d hd hv
      obtain ⟨hrcS, hsafe, hnd, hnm, hem⟩ := hv p (List.mem_cons_self _ _)
      obtain ⟨r, rc, hget, hlut, hrc⟩ := ventry_role hrcS
      have hne : r ≠ "" := lookupStr_LUT_ne_empty hlut
      have hfal : pyFalsy (.s r) = false := by simp [pyFalsy, hne]
      obtain ⟨d1, h1, hc1, hi1⟩ :=
        foldPairs_count (lookupStr_LUT_mem hlut) p d hd hsafe
      obtain ⟨d', h2, hc2, hi2⟩ := ih d1 hi1
        (fun q hq => hv q (List.mem_cons_of_mem _ hq))
      refine ⟨d', ?_, ?_, hi2⟩
      · rw [fillPersonnel, hget]
        simp only [hfal, Bool.false_eq_true, if_false]
        rw [show roleLut (.s r) = .ok (lookupStr personnel_role_LUT r)
          from rfl, hlut]
        show (do
            let d1 ← p.foldlM (procPair rc) d
            fillPersonnel d1 rest) = Except.ok d'
        rw [h1]
        exact h2
      · intro K
        rw [hc2, hc1, fillDelta, hrc]
        simp only [Option.getD_some]
        omega

theorem get_initFold_not_mem (d : Doc) (ks : List String) (K : String)
    (h : K ∉ ks) :
    (ks.foldl (fun d k => d.set k (.list [])) d).get K = d.get K := by
  induction ks generalizing d with
  | nil => rfl
  | cons k ks ih =>
      rw [List.foldl_cons, ih _ (fun hm => h (List.mem_cons_of_mem _ hm))]
      exact Doc.get_set_ne d k K _
        (fun he => h (he ▸ List.mem_cons_self _ _))

theorem get_initFold_mem (d : Doc) (ks : List String) (K : String) :
    K ∈ ks → ks.Nodup →
    (ks.foldl (fun d k => d.set k (.list [])) d).get K = some (.list []) := by
  induction ks generalizing d with
  | nil => intro h _; cases h
  | cons k ks ih =>
      intro h hnd
      rw [List.foldl_cons]
      rcases List.mem_cons.mp h with rfl | hm
      · rw [get_initFold_not_mem _ _ _ (List.nodup_cons.mp hnd).1]
        exact Doc.get_set_same d K (.list [])
      · exact ih _ hm (List.nodup_cons.mp hnd).2

theorem personnelFams_nodup : personnelFams.Nodup := by decide

theorem inited_personnelInit (d : Doc) : Inited (personnelInit d) :=
  fun k hk =>
    ⟨[], get_initFold_mem d personnelFams k hk personnelFams_nodup⟩

theorem countFam_personnelInit (d : Doc) {k : String}
    (hk : k ∈ personnelFams) : countFam (personnelInit d) k = 0 := by
  rw [countFam, personnelInit,
    get_initFold_mem d personnelFams k hk personnelFams_nodup]
  rfl

theorem pairsDelta_zero {rc K : String} {p : List (String × Val)}
    (h : ∀ kv ∈ p, tcount (pairTargets rc kv.1) K = 0) :
    pairsDelta rc K p = 0 := by
  induction p with
  | nil => rfl
  | cons kv rest ih =>
      rw [pairsDelta, h kv (List.mem_cons_self _ _),
        ih (fun kv' h' => h kv' (List.mem_cons_of_mem _ h'))]

theorem pairsDelta_single {rc K j : String} (w : Nat)
    (hw : tcount (pairTargets rc j) K = w)
    (hz : ∀ k ∈ safePersonnelKeys, k ≠ j →
      tcount (pairTargets rc k) K = 0)
    {p : List (String × Val)}
    (hsafe : ∀ kv ∈ p, kv.1 ∈ safePersonnelKeys)
    (hnd : (p.map Prod.fst).Nodup) (hmem : ∃ kv ∈ p, kv.1 = j) :
    pairsDelta rc K p = w := by
  induction p with
  | nil =>
      obtain ⟨kv, hm, _⟩ := hmem
      cases hm
  | cons kv rest ih =>
      rw [pairsDelta]
      have h1 : kv.1 ∉ rest.map Prod.fst := by
        simp only [List.map_cons, List.nodup_cons] at hnd
        exact hnd.1
      by_cases hj : kv.1 = j
      · have hrest : pairsDelta rc K rest = 0 := by
          apply pairsDelta_zero
          intro kv' hkv'
          refine hz kv'.1 (hsafe kv' (List.mem_cons_of_mem _ hkv')) ?_
          intro he
          exact h1 (by
            rw [hj, ← he]
            exact List.mem_map_of_mem Prod.fst hkv')
        rw [hj, hw, hrest]
        omega
      · rw [hz kv.1 (hsafe kv (List.mem_cons_self _ _)) hj]
        have hmem' : ∃ kv' ∈ rest, kv'.1 = j := by
          obtain ⟨kv', hm', he'⟩ := hmem
          rcases List.mem_cons.mp hm' with rfl | hm'
          · exact absurd he' hj
          · exact ⟨kv', hm', he'⟩
        rw [ih (fun kv' h' => hsafe kv' (List.mem_cons_of_mem _ h'))
          (by simp only [List.map_cons, List.nodup_cons] at hnd
              exact hnd.2) hmem']
        omega

theorem fillDelta_facet (K jkey : String)
    (hw : ∀ rc ∈ roleCodes, tcount (pairTargets rc jkey) K = 1)
    (hz : ∀ rc ∈ roleCodes, ∀ k ∈ safePersonnelKeys, k ≠ jkey →
      tcount (pairTargets rc k) K = 0)
    (es : List PEntry) (hv : ∀ p ∈ es, VEntry p)
    (hmem : ∀ p ∈ es, ∃ kv ∈ p, kv.1 = jkey) :
    fillDelta es K = es.length := by
  induction es with
  | nil => rfl
  | cons p rest ih =>
      obtain ⟨hrcS, hsafe, hnd, _, _⟩ := hv p (List.mem_cons_self _ _)
      obtain ⟨r, rc, hget, hlut, hrc⟩ := ventry_role hrcS
      have hrcm : rc ∈ roleCodes := lookupStr_LUT_mem hlut
      rw [fillDelta, hrc]
      simp only [Option.getD_some]
      rw [pairsDelta_single 1 (hw rc hrcm) (hz rc hrcm) hsafe hnd
        (hmem p (List.mem_cons_self _ _)),
        ih (fun q hq => hv q (List.mem_cons_of_mem _ hq))
          (fun q hq => hmem q (List.mem_cons_of_mem _ hq)),
        List.length_cons]
      omega

theorem fillDelta_famSub (sub jkey rc' : String)
    (hw : ∀ rc ∈ roleCodes, tcount (pairTargets rc jkey) (famKey rc' sub) =
      if rc = rc' then 1 else 0)
    (hz : ∀ rc ∈ roleCodes, ∀ k ∈ safePersonnelKeys, k ≠ jkey →
      tcount (pairTargets rc k) (famKey rc' sub) = 0)
    (es : List PEntry) (hv : ∀ p ∈ es, VEntry p)
    (hmem : ∀ p ∈ es, ∃ kv ∈ p, kv.1 = jkey) :
    fillDelta es (famKey rc' sub) =
      (es.filter (fun p => entryRC p == some rc')).length := by
  induction es with
  | nil => rfl
  | cons p rest ih =>
      obtain ⟨hrcS, hsafe, hnd, _, _⟩ := hv p (List.mem_cons_self _ _)
      obtain ⟨r, rc, hget, hlut, hrc⟩ := ventry_role hrcS
      have hrcm : rc ∈ roleCodes := lookupStr_LUT_mem hlut
      rw [fillDelta, hrc]
      simp only [Option.getD_some]
      rw [pairsDelta_single (if rc = rc' then 1 else 0) (hw rc hrcm)
        (hz rc hrcm) hsafe hnd (hmem p (List.mem_cons_self _ _)),
        ih (fun q hq => hv q (List.mem_cons_of_mem _ hq))
          (fun q hq => hmem q (List.mem_cons_of_mem _ hq))]
      rw [List.filter_cons, hrc]
      by_cases hqq : rc = rc'
      · subst hqq
        simp
        omega
      · have : (some rc == some rc') = false := by
          simp [hqq]
        rw [this]
        simp [hqq]

theorem mem_of_get_role {p : PEntry} {v : Val}
    (h : p.get "mmd:role" = some v) : ∃ kv ∈ p, kv.1 = "mmd:role" :=
  ⟨("mmd:role", v), get_eq_some_mem h, rfl⟩

theorem mem_of_get_name {p : PEntry} {v : Val}
    (h : p.get "mmd:name" = some v) : ∃ kv ∈ p, kv.1 = "mmd:name" :=
  ⟨("mmd:name", v), get_eq_some_mem h, rfl⟩

theorem mem_of_get_email {p : PEntry} {v : Val}
    (h : p.get "mmd:email" = some v) : ∃ kv ∈ p, kv.1 = "mmd:email" :=
  ⟨("mmd:email", v), get_eq_some_mem h, rfl⟩

theorem fillPersonnel_break (d : Doc) (es1 es2 : List PEntry) (bad : PEntry)
    (hb : ∃ rv, bad.get "mmd:role" = some rv ∧
      (pyFalsy rv = true ∨ roleLut rv = .ok none)) :
    fillPersonnel d (es1 ++ bad :: es2) = fillPersonnel d es1 := by
  induction es1 generalizing d with
  | nil =>
      obtain ⟨rv, hrv, hc⟩ := hb
      have hnil : fillPersonnel d ([] : List PEntry) = .ok d := rfl
      rw [List.nil_append, hnil, fillPersonnel, hrv]
      simp only []
      rcases hc with hc | hc
      · rw [if_pos hc]
      · by_cases hf : pyFalsy rv = true
        · rw [if_pos hf]
        · rw [if_neg hf, hc]
  | cons p es1 ih =>
      simp only [List.cons_append, fillPersonnel]
      cases hp : p.get "mmd:role" with
      | none => rfl
      | some rv =>
          simp only []
          by_cases hf : pyFalsy rv = true
          · rw [if_pos hf, if_pos hf]
          · rw [if_neg hf, if_neg hf]
            cases hl : roleLut rv with
            | error e => rfl
            | ok orc =>
                cases orc with
                | none => rfl
                | some rc =>
                    simp only []
                    cases hfold : p.foldlM (procPair rc) d with
                    | error e => rfl
                    | ok d1 => exact ih d1

/-- Run the fill loop from the initialised empty document (used to evaluate
the code at concrete inputs). -/
def runFill (es : List PEntry) : Doc :=
  match fillPersonnel (personnelInit []) es with
  | .ok d => d
  | .error _ => []

/-- Whether the fill loop terminated without a Python exception. -/
def fillOk (es : List PEntry) : Bool :=
  match fillPersonnel (personnelInit []) es with
  | .ok _ => true
  | .error _ => false

/-- **C3 (amended).** Personnel flattening: (a) for a record whose
personnel entries ALL carry an accepted role (plus name/email and only
standard sub-field keys), the unqualified `personnel_role` and
`personnel_name` families have exactly k elements for k entries, and the
role-qualified `personnel_<code>_role` family of each role has exactly as
many elements as entries of that role; (b) an entry whose role is empty/
None or not in the lookup table hits a `break`: the whole remaining list is
dropped, not just that entry (`MMD4SolR.tosolr`, lines 619–649). -/
theorem tosolr_personnel_cardinality (din : Doc) (es : List PEntry)
    (hv : ∀ p ∈ es, VEntry p) :
    (∃ d', personnelSection din (some (.many es)) = .ok d' ∧
      countFam d' "personnel_role" = es.length ∧
      countFam d' "personnel_name" = es.length ∧
      ∀ rc ∈ roleCodes, countFam d' (famKey rc "role") =
        (es.filter (fun p => entryRC p == some rc)).length) ∧
    (∀ d : Doc, ∀ bad : PEntry, ∀ es1 es2 : List PEntry,
      (∃ rv, bad.get "mmd:role" = some rv ∧
        (pyFalsy rv = true ∨ roleLut rv = .ok none)) →
      fillPersonnel d (es1 ++ bad :: es2) = fillPersonnel d es1) := by
  constructor
  · obtain ⟨d', hfill, hc, _⟩ :=
      fill_count es (personnelInit din) (inited_personnelInit din) hv
    have hmemrole : ∀ p ∈ es, ∃ kv ∈ p, kv.1 = "mmd:role" := by
      intro p hp
      obtain ⟨r, rc, hget, _, _⟩ := ventry_role (hv p hp).1
      exact mem_of_get_role hget
    have hmemname : ∀ p ∈ es, ∃ kv ∈ p, kv.1 = "mmd:name" := by
      intro p hp
      obtain ⟨v, hg⟩ := Option.isSome_iff_exists.mp (hv p hp).2.2.2.1
      exact mem_of_get_name hg
    have hW : ∀ rc' ∈ roleCodes, ∀ rc ∈ roleCodes,
        tcount (pairTargets rc "mmd:role") (famKey rc' "role") =
          if rc = rc' then 1 else 0 := by decide
    have hZ : ∀ rc' ∈ roleCodes, ∀ rc ∈ roleCodes,
        ∀ k ∈ safePersonnelKeys, k ≠ "mmd:role" →
          tcount (pairTargets rc k) (famKey rc' "role") = 0 := by decide
    refine ⟨d', ?_, ?_, ?_, ?_⟩
    · rw [personnelSection]
      exact hfill
    · rw [hc "personnel_role",
        countFam_personnelInit din (by simp [personnelFams]), Nat.zero_add,
        fillDelta_facet "personnel_role" "mmd:role" (by decide) (by decide)
          es hv hmemrole]
    · rw [hc "personnel_name",
        countFam_personnelInit din (by simp [personnelFams]), Nat.zero_add,
        fillDelta_facet "personnel_name" "mmd:name" (by decide) (by decide)
          es hv hmemname]
    · intro rc hrc
      rw [hc (famKey rc "role"),
        countFam_personnelInit din
          (famKey_mem_fams rc hrc "role" (by simp [personnelSubs])),
        Nat.zero_add,
        fillDelta_famSub "role" "mmd:role" rc (hW rc hrc) (hZ rc hrc)
          es hv hmemrole]
  · intro d bad es1 es2 hb
    exact fillPersonnel_break d es1 es2 bad hb

/-- **C3 counterexample.** One personnel entry with the unrecognised role
"Boss" followed by a valid Investigator entry: the claim says the invalid
entry is skipped and the remaining valid entry still processed (so
`personnel_role`/`personnel_name` would have one element), but the `break`
drops the valid entry too: both families stay empty, with no error. -/
theorem personnel_break_drops_remaining_valid :
    fillOk [[("mmd:role", .s "Boss")],
      [("mmd:role", .s "Investigator"), ("mmd:name", .s "Jane Doe")]] =
      true ∧
    countFam (runFill [[("mmd:role", .s "Boss")],
      [("mmd:role", .s "Investigator"), ("mmd:name", .s "Jane Doe")]])
      "personnel_role" = 0 ∧
    countFam (runFill [[("mmd:role", .s "Boss")],
      [("mmd:role", .s "Investigator"), ("mmd:name", .s "Jane Doe")]])
      "personnel_name" = 0 := by
  refine ⟨rfl, rfl, rfl⟩

/-- **C3 witness.** The cardinality part applied at two concrete valid
entries (an Investigator and a Technical contact). -/
theorem tosolr_personnel_cardinality_witness :
    ∃ d', personnelSection []
      (some (.many [[("mmd:role", .s "Investigator"),
        ("mmd:name", .s "N1"), ("mmd:email", .s "E1")],
        [("mmd:role", .s "Technical contact"), ("mmd:name", .s "N2"),
         ("mmd:email", .s "E2")]])) = .ok d' ∧
      countFam d' "personnel_role" = 2 ∧
      countFam d' "personnel_name" = 2 ∧
      ∀ rc ∈ roleCodes, countFam d' (famKey rc "role") =
        (([[("mmd:role", Val.s "Investigator"),
        ("mmd:name", Val.s "N1"), ("mmd:email", Val.s "E1")],
        [("mmd:role", Val.s "Technical contact"), ("mmd:name", Val.s "N2"),
         ("mmd:email", Val.s "E2")]] : List PEntry).filter
          (fun p => entryRC p == some rc)).length :=
  (tosolr_personnel_cardinality [] [[("mmd:role", .s "Investigator"),
    ("mmd:name", .s "N1"), ("mmd:email", .s "E1")],
    [("mmd:role", .s "Technical contact"), ("mmd:name", .s "N2"),
     ("mmd:email", .s "E2")]] (by decide)).1

/-- Personnel sibling-family lengths: for entries that all carry a role,
name and email, the `personnel_<code>_name` and `personnel_<code>_email`
families of every role have equal length, one element per entry of that
role (`MMD4SolR.tosolr`, lines 619–649). -/
theorem tosolr_personnel_sibling_lengths (din : Doc) (es : List PEntry)
    (hv : ∀ p ∈ es, VEntry p) :
    ∃ d', personnelSection din (some (.many es)) = .ok d' ∧
      ∀ rc ∈ roleCodes,
        countFam d' (famKey rc "name") = countFam d' (famKey rc "email") ∧
        countFam d' (famKey rc "name") =
          (es.filter (fun p => entryRC p == some rc)).length := by
  obtain ⟨d', hfill, hc, _⟩ :=
    fill_count es (personnelInit din) (inited_personnelInit din) hv
  have hmemname : ∀ p ∈ es, ∃ kv ∈ p, kv.1 = "mmd:name" := by
    intro p hp
    obtain ⟨v, hg⟩ := Option.isSome_iff_exists.mp (hv p hp).2.2.2.1
    exact mem_of_get_name hg
  have hmememail : ∀ p ∈ es, ∃ kv ∈ p, kv.1 = "mmd:email" := by
    intro p hp
    obtain ⟨v, hg⟩ := Option.isSome_iff_exists.mp (hv p hp).2.2.2.2
    exact mem_of_get_email hg
  have hWn : ∀ rc' ∈ roleCodes, ∀ rc ∈ roleCodes,
      tcount (pairTargets rc "mmd:name") (famKey rc' "name") =
        if rc = rc' then 1 else 0 := by decide
  have hZn : ∀ rc' ∈ roleCodes, ∀ rc ∈ roleCodes,
      ∀ k ∈ safePersonnelKeys, k ≠ "mmd:name" →
        tcount (pairTargets rc k) (famKey rc' "name") = 0 := by decide
  have hWe : ∀ rc' ∈ roleCodes, ∀ rc ∈ roleCodes,
      tcount (pairTargets rc "mmd:email") (famKey rc' "email") =
        if rc = rc' then 1 else 0 := by decide
  have hZe : ∀ rc' ∈ roleCodes, ∀ rc ∈ roleCodes,
      ∀ k ∈ safePersonnelKeys, k ≠ "mmd:email" →
        tcount (pairTargets rc k) (famKey rc' "email") = 0 := by decide
  refine ⟨d', ?_, ?_⟩
  · rw [personnelSection]
    exact hfill
  · intro rc hrc
    have hname : countFam d' (famKey rc "name") =
        (es.filter (fun p => entryRC p == some rc)).length := by
      rw [hc (famKey rc "name"),
        countFam_personnelInit din
          (famKey_mem_fams rc hrc "name" (by simp [personnelSubs])),
        Nat.zero_add,
        fillDelta_famSub "name" "mmd:name" rc (hWn rc hrc) (hZn rc hrc)
          es hv hmemname]
    have hemail : countFam d' (famKey rc "email") =
        (es.filter (fun p => entryRC p == some rc)).length := by
      rw [hc (famKey rc "email"),
        countFam_personnelInit din
          (famKey_mem_fams rc hrc "email" (by simp [personnelSubs])),
        Nat.zero_add,
        fillDelta_famSub "email" "mmd:email" rc (hWe rc hrc) (hZe rc hrc)
          es hv hmememail]
    exact ⟨by rw [hname, hemail], hname⟩

/-! ## Repeated-group flatteners: data centers (lines 651–675) and
platforms (lines 843–871) -/

/-- The create-if-absent list append shared by the data-center and platform
flatteners (`if not element_name in mydict.keys(): mydict[element_name] = []`
followed by `mydict[element_name].append(v)` in both arms): a fresh key gets
a one-element list, an existing list is appended to, and `.append` on a
non-list value raises AttributeError. -/
def Doc.appendOrCreate (d : Doc) (k : String) (v : Val) :
    Except PyErr Doc :=
  match d.get k with
  | none => .ok (d.set k (.list [v]))
  | some (.list xs) => .ok (d.set k (.list (xs ++ [v])))
  | some _ => .error .attrError

/-- The inner loop over a dict-valued sub-element,
`for kkey, vvalue in value.items(): ... append`, the family key being
computed from the inner key by `f`. -/
def foldAOC (f : String → String) (d : Doc) :
    List (String × Val) → Except PyErr Doc
  | [] => .ok d
  | kkv :: rest =>
      match d.appendOrCreate (f kkv.1) kkv.2 with
      | .error e => .error e
      | .ok d1 => foldAOC f d1 rest

/-- One `for key, value in element.items()` step of a group flattener
(lines 661–675 for data centers, 852–866 for platforms): a dict value is
flattened pair-wise under the dict naming scheme `nameD`, any other value
is appended under the scalar naming scheme `nameS`. -/
def procGroupPair (nameD : String → String → String)
    (nameS : String → String) (d : Doc) (kv : String × Val) :
    Except PyErr Doc :=
  match kv.2 with
  | .dict kvs => foldAOC (fun kk => nameD kv.1 kk) d kvs
  | v => d.appendOrCreate (nameS kv.1) v

/-- The loop over one group element's pairs. -/
def foldPairsG (nameD : String → String → String)
    (nameS : String → String) (d : Doc) :
    List (String × Val) → Except PyErr Doc
  | [] => .ok d
  | kv :: rest =>
      match procGroupPair nameD nameS d kv with
      | .error e => .error e
      | .ok d1 => foldPairsG nameD nameS d1 rest

/-- `element_name = 'data_center_{}'.format(kkey.split(':')[-1])`
(line 663): the outer key is ignored. -/
def dataCenterNameD (_k kk : String) : String :=
  "data_center_" ++ lastComp kk

/-- `element_name = '{}'.format(key.split(':')[-1])` (line 669): a scalar
sub-element gets no `data_center_` prefix. -/
def dataCenterNameS (k : String) : String := lastComp k

/-- `'platform_{}_{}'.format(platform_key.split(':')[-1],
kkey.split(':')[-1])` (line 855). -/
def platformNameD (k kk : String) : String :=
  "platform_" ++ lastComp k ++ "_" ++ lastComp kk

/-- `'platform_{}'.format(platform_key.split(':')[-1])` (line 861). -/
def platformNameS (k : String) : String := "platform_" ++ lastComp k

/-- The loop over the data-center elements (lines 659–675). -/
def foldDCs (d : Doc) : List Doc → Except PyErr Doc
  | [] => .ok d
  | dc :: rest =>
      match foldPairsG dataCenterNameD dataCenterNameS d dc with
      | .error e => .error e
      | .ok d1 => foldDCs d1 rest

/-- The data-center section (lines 651–675): an absent `mmd:data_center`
is skipped, a single dict is coerced to a one-element list. -/
def dataCenterSection (d : Doc) (x : Option (OneOrMany Doc)) :
    Except PyErr Doc :=
  match x with
  | none => .ok d
  | some o => foldDCs d o.toList

/-- `initial_platform.startswith('Sentinel')`. -/
def strStartsWith (pre s : String) : Bool := pre.data.isPrefixOf s.data

/-- `initial_platform[:-1]`. -/
def strDropLast (s : String) : String := ⟨s.data.dropLast⟩

/-- The `startswith` test and `platform_sentinel` assignment of
lines 870–871, applied to the value read as `initial_platform`
(`.startswith` on a non-string raises AttributeError). -/
def sentinelCheck (d : Doc) (v : Val) : Except PyErr Doc :=
  match v with
  | .s s =>
      if strStartsWith "Sentinel" s then
        .ok (d.set "platform_sentinel" (.s (strDropLast s)))
      else .ok d
  | _ => .error .attrError

/-- The Sentinel special case run after each platform element
(lines 868–871): `initial_platform = mydict['platform_long_name'][0]`
raises KeyError when the family was never created and IndexError on an
empty list; indexing a string takes its first character, other values do
not support `[0]`. -/
def platformSentinelStep (d : Doc) : Except PyErr Doc :=
  match d.get "platform_long_name" with
  | none => .error .keyError
  | some (.list []) => .error .indexError
  | some (.list (v :: _)) => sentinelCheck d v
  | some (.s str) =>
      match str.data with
      | [] => .error .indexError
      | c :: _ => sentinelCheck d (.s (String.mk [c]))
  | some (.dict _) => .error .keyError
  | some _ => .error .typeError

/-- One platform element (lines 850–871): flatten its pairs, then the
Sentinel step. -/
def platformElem (d : Doc) (p : Doc) : Except PyErr Doc :=
  match foldPairsG platformNameD platformNameS d p with
  | .error e => .error e
  | .ok d1 => platformSentinelStep d1

/-- The loop over the platform elements. -/
def foldPlatforms (d : Doc) : List Doc → Except PyErr Doc
  | [] => .ok d
  | p :: rest =>
      match platformElem d p with
      | .error e => .error e
      | .ok d1 => foldPlatforms d1 rest

/-- The platform section (lines 843–871). -/
def platformSection (d : Doc) (x : Option (OneOrMany Doc)) :
    Except PyErr Doc :=
  match x with
  | none => .ok d
  | some o => foldPlatforms d o.toList

/-- The family keys one pair of a group element appends to. -/
def groupKeysOfPair (nameD : String → String → String)
    (nameS : String → String) (kv : String × Val) : List String :=
  match kv.2 with
  | .dict kvs => kvs.map (fun kkv => nameD kv.1 kkv.1)
  | _ => [nameS kv.1]

/-- Elements one group element appends to family `K`. -/
def groupDeltaPairs (nameD : String → String → String)
    (nameS : String → String) (K : String) :
    List (String × Val) → Nat
  | [] => 0
  | kv :: rest => tcount (groupKeysOfPair nameD nameS kv) K +
      groupDeltaPairs nameD nameS K rest

/-- Elements a whole group appends to family `K`. -/
def groupDelta (nameD : String → String → String)
    (nameS : String → String) (K : String) : List Doc → Nat
  | [] => 0
  | dc :: rest => groupDeltaPairs nameD nameS K dc +
      groupDelta nameD nameS K rest

theorem appendOrCreate_count {d d' : Doc} {k : String} {v : Val}
    (h : d.appendOrCreate k v = .ok d') (K : String) :
    countFam d' K = countFam d K + (if k = K then 1 else 0) := by
  unfold Doc.appendOrCreate at h
  cases hg : d.get k with
  | none =>
      rw [hg] at h
      injection h with h
      subst h
      by_cases hk : k = K
      · subst hk
        simp [countFam, hg]
      · have hK : K ≠ k := fun he => hk he.symm
        simp [countFam, hk, hK]
  | some v0 =>
      rw [hg] at h
      cases v0 with
      | list xs =>
          injection h with h
          subst h
          by_cases hk : k = K
          · subst hk
            simp [countFam, hg]
          · have hK : K ≠ k := fun he => hk he.symm
            simp [countFam, hk, hK]
      | s a => exact Except.noConfusion h
      | null => exact Except.noConfusion h
      | num q => exact Except.noConfusion h
      | numT q => exact Except.noConfusion h
      | dict kvs => exact Except.noConfusion h
      | geom g => exact Except.noConfusion h

theorem foldAOC_count (f : String → String) (kvs : List (String × Val)) :
    ∀ d d', foldAOC f d kvs = .ok d' → ∀ K,
      countFam d' K = countFam d K +
        tcount (kvs.map (fun kkv => f kkv.1)) K := by
  induction kvs with
  | nil =>
      intro d d' h K
      injection h with h
      subst h
      simp [tcount]
  | cons kkv rest ih =>
      intro d d' h K
      rw [foldAOC] at h
      cases hg : d.appendOrCreate (f kkv.1) kkv.2 with
      | error e =>
          rw [hg] at h
          exact Except.noConfusion h
      | ok d1 =>
          rw [hg] at h
          rw [ih d1 d' h K, appendOrCreate_count hg K, List.map_cons, tcount]
          exact Nat.add_assoc _ _ _

theorem procGroupPair_count (nameD : String → String → String)
    (nameS : String → String) (kv : String × Val) {d d' : Doc}
    (h : procGroupPair nameD nameS d kv = .ok d') (K : String) :
    countFam d' K = countFam d K +
      tcount (groupKeysOfPair nameD nameS kv) K := by
  obtain ⟨k0, v0⟩ := kv
  cases v0
  case dict kvs => exact foldAOC_count (fun kk => nameD k0 kk) kvs d d' h K
  all_goals
    have hc := appendOrCreate_count h K
  all_goals
    simpa [groupKeysOfPair, tcount] using hc

theorem foldPairsG_count (nameD : String → String → String)
    (nameS : String → String) (ps : List (String × Val)) :
    ∀ d d', foldPairsG nameD nameS d ps = .ok d' → ∀ K,
      countFam d' K = countFam d K + groupDeltaPairs nameD nameS K ps := by
  induction ps with
  | nil =>
      intro d d' h K
      injection h with h
      subst h
      simp [groupDeltaPairs]
  | cons kv rest ih =>
      intro d d' h K
      rw [foldPairsG] at h
      cases hg : procGroupPair nameD nameS d kv with
      | error e =>
          rw [hg] at h
          exact Except.noConfusion h
      | ok d1 =>
          rw [hg] at h
          rw [ih d1 d' h K, procGroupPair_count nameD nameS kv hg K,
            groupDeltaPairs]
          exact Nat.add_assoc _ _ _

theorem foldDCs_count (dcs : List Doc) :
    ∀ d d', foldDCs d dcs = .ok d' → ∀ K,
      countFam d' K = countFam d K +
        groupDelta dataCenterNameD dataCenterNameS K dcs := by
  induction dcs with
  | nil =>
      intro d d' h K
      injection h with h
      subst h
      simp [groupDelta]
  | cons dc rest ih =>
      intro d d' h K
      rw [foldDCs] at h
      cases hg : foldPairsG dataCenterNameD dataCenterNameS d dc with
      | error e =>
          rw [hg] at h
          exact Except.noConfusion h
      | ok d1 =>
          rw [hg] at h
          rw [ih d1 d' h K, foldPairsG_count _ _ dc d d1 hg K, groupDelta]
          exact Nat.add_assoc _ _ _

theorem sentinelCheck_count {d d' : Doc} {v : Val}
    (h : sentinelCheck d v = .ok d') (K : String)
    (hK : K ≠ "platform_sentinel") : countFam d' K = countFam d K := by
  unfold sentinelCheck at h
  cases v with
  | s s1 =>
      simp only [] at h
      by_cases hs : strStartsWith "Sentinel" s1 = true
      · rw [if_pos hs] at h
        injection h with h
        subst h
        simp [countFam, hK]
      · rw [if_neg hs] at h
        injection h with h
        subst h
        rfl
  | null => exact Except.noConfusion h
  | num q => exact Except.noConfusion h
  | numT q => exact Except.noConfusion h
  | list xs => exact Except.noConfusion h
  | dict kvs => exact Except.noConfusion h
  | geom g => exact Except.noConfusion h

theorem platformSentinelStep_count {d d' : Doc}
    (h : platformSentinelStep d = .ok d') (K : String)
    (hK : K ≠ "platform_sentinel") : countFam d' K = countFam d K := by
  unfold platformSentinelStep at h
  cases hg : d.get "platform_long_name" with
  | none =>
      rw [hg] at h
      exact Except.noConfusion h
  | some v0 =>
      rw [hg] at h
      cases v0 with
      | list xs =>
          cases xs with
          | nil => exact Except.noConfusion h
          | cons v rest => exact sentinelCheck_count h K hK
      | s str =>
          simp only [] at h
          cases hd : str.data with
          | nil =>
              rw [hd] at h
              exact Except.noConfusion h
          | cons c cs =>
              rw [hd] at h
              exact sentinelCheck_count h K hK
      | null => exact Except.noConfusion h
      | num q => exact Except.noConfusion h
      | numT q => exact Except.noConfusion h
      | dict kvs => exact Except.noConfusion h
      | geom g => exact Except.noConfusion h

theorem platformElem_count {d d' : Doc} {p : Doc}
    (h : platformElem d p = .ok d') (K : String)
    (hK : K ≠ "platform_sentinel") :
    countFam d' K = countFam d K +
      groupDeltaPairs platformNameD platformNameS K p := by
  unfold platformElem at h
  cases hg : foldPairsG platformNameD platformNameS d p with
  | error e =>
      rw [hg] at h
      exact Except.noConfusion h
  | ok d1 =>
      rw [hg] at h
      rw [platformSentinelStep_count h K hK,
        foldPairsG_count _ _ p d d1 hg K]

theorem foldPlatforms_count (ps : List Doc) :
    ∀ d d', foldPlatforms d ps = .ok d' → ∀ K, K ≠ "platform_sentinel" →
      countFam d' K = countFam d K +
        groupDelta platformNameD platformNameS K ps := by
  induction ps with
  | nil =>
      intro d d' h K _
      injection h with h
      subst h
      simp [groupDelta]
  | cons p rest ih =>
      intro d d' h K hK
      rw [foldPlatforms] at h
      cases hg : platformElem d p with
      | error e =>
          rw [hg] at h
          exact Except.noConfusion h
      | ok d1 =>
          rw [hg] at h
          rw [ih d1 d' h K hK, platformElem_count hg K hK, groupDelta]
          exact Nat.add_assoc _ _ _

theorem groupDelta_congr (nameD : String → String → String)
    (nameS : String → String) (K1 K2 : String) (dcs : List Doc)
    (h : ∀ dc ∈ dcs, groupDeltaPairs nameD nameS K1 dc =
      groupDeltaPairs nameD nameS K2 dc) :
    groupDelta nameD nameS K1 dcs = groupDelta nameD nameS K2 dcs := by
  induction dcs with
  | nil => rfl
  | cons dc rest ih =>
      rw [groupDelta, groupDelta, h dc (List.mem_cons_self dc rest),
        ih (fun x hx => h x (List.mem_cons_of_mem dc hx))]

/-- The data-center section run on an empty target dict (evaluation
helper). -/
def runDC (dcs : List Doc) : Doc :=
  match dataCenterSection [] (some (.many dcs)) with
  | .ok d => d
  | .error _ => []

/-- Whether the data-center section succeeds on an empty target dict. -/
def dcOk (dcs : List Doc) : Bool :=
  match dataCenterSection [] (some (.many dcs)) with
  | .ok _ => true
  | .error _ => false

/-- The platform section run on an empty target dict (evaluation
helper). -/
def runPF (ps : List Doc) : Doc :=
  match platformSection [] (some (.many ps)) with
  | .ok d => d
  | .error _ => []

/-- **C1 (amended).** The repeated-group flatteners insert no placeholder:
a flattened family receives exactly one element per instance sub-field that
maps to it, so sibling families are equal-length when every instance of the
group contributes to both equally, and an instance carrying one sibling
sub-field but not the other makes the lengths diverge.  Concretely:
(a) personnel (lines 619–649): for entries that all carry a role, name and
email, the `personnel_<code>_name` and `personnel_<code>_email` families of
every role are equal-length, one element per entry of that role;
(b) data centers (lines 652–675): whenever the flattener completes, every
family grows by exactly the number of instance sub-fields mapping to it, so
`data_center_short_name` and `data_center_long_name` end equal-length when
they start equal and every element contributes to both equally;
(c) platforms (lines 843–871): the same growth law holds for every family
other than `platform_sentinel` (a scalar set by the Sentinel special case,
not a family). -/
theorem tosolr_group_sibling_family_lengths :
    (∀ (din : Doc) (es : List PEntry), (∀ p ∈ es, VEntry p) →
      ∃ d', personnelSection din (some (.many es)) = .ok d' ∧
        ∀ rc ∈ roleCodes,
          countFam d' (famKey rc "name") = countFam d' (famKey rc "email") ∧
          countFam d' (famKey rc "name") =
            (es.filter (fun p => entryRC p == some rc)).length) ∧
    (∀ (d : Doc) (dcs : List Doc) (d' : Doc),
      dataCenterSection d (some (.many dcs)) = .ok d' →
      (∀ K, countFam d' K = countFam d K +
        groupDelta dataCenterNameD dataCenterNameS K dcs) ∧
      (countFam d "data_center_short_name" =
          countFam d "data_center_long_name" →
        (∀ dc ∈ dcs,
          groupDeltaPairs dataCenterNameD dataCenterNameS
            "data_center_short_name" dc =
          groupDeltaPairs dataCenterNameD dataCenterNameS
            "data_center_long_name" dc) →
        countFam d' "data_center_short_name" =
          countFam d' "data_center_long_name")) ∧
    (∀ (d : Doc) (ps : List Doc) (d' : Doc),
      platformSection d (some (.many ps)) = .ok d' →
      ∀ K, K ≠ "platform_sentinel" →
        countFam d' K = countFam d K +
          groupDelta platformNameD platformNameS K ps) := by
  refine ⟨fun din es hv => tosolr_personnel_sibling_lengths din es hv,
    ?_, ?_⟩
  · intro d dcs d' h
    have hchar : ∀ K, countFam d' K = countFam d K +
        groupDelta dataCenterNameD dataCenterNameS K dcs :=
      fun K => foldDCs_count dcs d d' h K
    refine ⟨hchar, ?_⟩
    intro h0 hsib
    rw [hchar "data_center_short_name", hchar "data_center_long_name", h0,
      groupDelta_congr dataCenterNameD dataCenterNameS
        "data_center_short_name" "data_center_long_name" dcs hsib]
  · intro d ps d' h K hK
    exact foldPlatforms_count ps d d' h K hK

/-- **C1 counterexample.** No placeholder keeps sibling families aligned:
a single Investigator entry carrying a name but no email yields
`personnel_investigator_name` of length 1 and
`personnel_investigator_email` of length 0, and a single data-center
element whose `mmd:data_center_name` dict has a short name but no long
name yields `data_center_short_name` of length 1 while
`data_center_long_name` is never created (length 0); both runs succeed. -/
theorem group_sibling_families_diverge :
    fillOk [[("mmd:role", .s "Investigator"),
      ("mmd:name", .s "Jane Doe")]] = true ∧
    countFam (runFill [[("mmd:role", .s "Investigator"),
      ("mmd:name", .s "Jane Doe")]]) "personnel_investigator_name" = 1 ∧
    countFam (runFill [[("mmd:role", .s "Investigator"),
      ("mmd:name", .s "Jane Doe")]]) "personnel_investigator_email" = 0 ∧
    dcOk [[("mmd:data_center_name",
      .dict [("mmd:short_name", .s "METNO")]),
      ("mmd:data_center_url", .s "met.no")]] = true ∧
    countFam (runDC [[("mmd:data_center_name",
      .dict [("mmd:short_name", .s "METNO")]),
      ("mmd:data_center_url", .s "met.no")]])
      "data_center_short_name" = 1 ∧
    countFam (runDC [[("mmd:data_center_name",
      .dict [("mmd:short_name", .s "METNO")]),
      ("mmd:data_center_url", .s "met.no")]])
      "data_center_long_name" = 0 :=
  ⟨rfl, rfl, rfl, rfl, rfl, rfl⟩

/-- **C1 witness.** The group theorem applied at concrete inputs: one
Investigator entry carrying both name and email; two data-center elements
each carrying both short and long names; one platform element with a short
name and a Sentinel long name. -/
theorem tosolr_group_sibling_family_lengths_witness :
    (∃ d', personnelSection []
      (some (.many [[("mmd:role", .s "Investigator"),
        ("mmd:name", .s "N1"), ("mmd:email", .s "E1")]])) = .ok d' ∧
      ∀ rc ∈ roleCodes,
        countFam d' (famKey rc "name") = countFam d' (famKey rc "email") ∧
        countFam d' (famKey rc "name") =
          (([[("mmd:role", Val.s "Investigator"), ("mmd:name", Val.s "N1"),
            ("mmd:email", Val.s "E1")]] : List PEntry).filter
            (fun p => entryRC p == some rc)).length) ∧
    countFam (runDC [[("mmd:data_center_name",
        .dict [("mmd:short_name", .s "METNO"),
          ("mmd:long_name", .s "Norwegian Meteorological Institute")])],
      [("mmd:data_center_name",
        .dict [("mmd:short_name", .s "NSC"),
          ("mmd:long_name", .s "Norwegian Space Centre")])]])
      "data_center_short_name" =
    countFam (runDC [[("mmd:data_center_name",
        .dict [("mmd:short_name", .s "METNO"),
          ("mmd:long_name", .s "Norwegian Meteorological Institute")])],
      [("mmd:data_center_name",
        .dict [("mmd:short_name", .s "NSC"),
          ("mmd:long_name", .s "Norwegian Space Centre")])]])
      "data_center_long_name" ∧
    countFam (runPF [[("mmd:short_name", .s "S1A"),
      ("mmd:long_name", .s "Sentinel-1A")]]) "platform_short_name" =
    countFam ([] : Doc) "platform_short_name" +
      groupDelta platformNameD platformNameS "platform_short_name"
        [[("mmd:short_name", .s "S1A"),
          ("mmd:long_name", .s "Sentinel-1A")]] :=
  ⟨tosolr_group_sibling_family_lengths.1 []
    [[("mmd:role", .s "Investigator"), ("mmd:name", .s "N1"),
      ("mmd:email", .s "E1")]] (by decide),
   (tosolr_group_sibling_family_lengths.2.1 []
      [[("mmd:data_center_name",
          .dict [("mmd:short_name", .s "METNO"),
            ("mmd:long_name", .s "Norwegian Meteorological Institute")])],
        [("mmd:data_center_name",
          .dict [("mmd:short_name", .s "NSC"),
            ("mmd:long_name", .s "Norwegian Space Centre")])]]
      (runDC [[("mmd:data_center_name",
          .dict [("mmd:short_name", .s "METNO"),
            ("mmd:long_name", .s "Norwegian Meteorological Institute")])],
        [("mmd:data_center_name",
          .dict [("mmd:short_name", .s "NSC"),
            ("mmd:long_name", .s "Norwegian Space Centre")])]])
      rfl).2 rfl (by decide),
   tosolr_group_sibling_family_lengths.2.2 []
     [[("mmd:short_name", .s "S1A"), ("mmd:long_name", .s "Sentinel-1A")]]
     (runPF [[("mmd:short_name", .s "S1A"),
       ("mmd:long_name", .s "Sentinel-1A")]]) rfl
     "platform_short_name" (by decide)⟩

/-! ## Hierarchy linker: `IndexMMD.add_level2` (lines 1025–1140) -/

/-- The NPI parent-reference clean-up (lines 1030–1033). -/
def npiClean (v : String) : String :=
  pyReplace (pyReplace (pyReplace (pyReplace v
    "http://data.npolar.no/dataset/" "")
    "https://data.npolar.no/dataset/" "")
    "http://api.npolar.no/dataset/" "") ".xml" ""

/-- The store-internal / query-only keys stripped from the fetched parent
before rewriting it (lines 1092–1106); each pop is guarded by a membership
test, so popping an absent key is a no-op. -/
def popKeys : List String :=
  ["full_text", "bbox__maxX", "bbox__maxY", "bbox__minX", "bbox__minY",
   "bbox_rpt", "ss_access"]

def popAll (d : Doc) : Doc := popKeys.foldl Doc.pop d

/-- The idempotent merge of the child reference into the fetched parent
(lines 1110–1122): set `isParent`, then append
`metadata_identifier.replace(':','_')` to `related_dataset` only if not
already present; an absent `related_dataset` is created as a fresh
one-element list.  A non-list `related_dataset` makes the `in` test /
`.append` fail in Python-specific ways. -/
def mergeChild (par : Doc) (childIdU : String) : Except PyErr Doc :=
  let p1 := par.set "isParent" (.s "true")
  match p1.get "related_dataset" with
  | some (.list xs) =>
      if xs.any (fun c => c.eqStr childIdU) then .ok p1
      else .ok (p1.set "related_dataset" (.list (xs ++ [.s childIdU])))
  | some (.s t) =>
      -- `childIdU not in t` is substring containment; `.append` on a str
      -- raises AttributeError
      if strIn childIdU t then .ok p1 else .error .attrError
  | some (.dict kvs) =>
      -- `in` on a dict tests keys; `.append` on a dict raises
      if kvs.any (fun kv => kv.1 = childIdU) then .ok p1
      else .error .attrError
  | some _ => .error .typeError
  | none => .ok (p1.set "related_dataset" (.list [.s childIdU]))

inductive L2Result where
  | skipped
  | done
  deriving DecidableEq

/-- `IndexMMD.add_level2` (lines 1025–1140): NPI clean-up of the declared
parent reference, `isChild` marker, feature type, thumbnail block, parent
search by the sanitised reference (skip unless exactly one match), strip
internal fields, idempotent merge, then write the child and the updated
parent through `addDoc`.  `feat`/`thumb` are the external-collaborator
oracles as in `index_record`. -/
def add_level2 (store : List Doc) (rec : Doc) (addThumbnail : Bool)
    (feat : Option String) (thumb : Option String) :
    Except PyErr (List Doc × L2Result) :=
  match rec.get "related_dataset" with
  | none => .error .keyError
  | some (.s rd0) =>
      let rd := npiClean rd0
      let rec1 := (rec.set "related_dataset" (.s rd)).set "isChild"
        (.s "true")
      let rec2 := featStep rec1 feat
      match rec2.get "id" with
      | none => .error .keyError
      | some _ =>
          -- with addThumbnail and no WMS entry, line 1072 reads the unbound
          -- local thumbnail_data: NameError
          let recR : Except PyErr Doc :=
            if addThumbnail then
              match rec2.get "data_access_url_ogc_wms" with
              | some _ =>
                  match thumb with
                  | some t =>
                      if t ≠ "" then
                        .ok (rec2.set "thumbnail_data" (.s t))
                      else .ok rec2
                  | none => .ok rec2
              | none => .error .nameError
            else .ok rec2
          match recR with
          | .error e => .error e
          | .ok rec3 =>
              let myparid := sanitizeId rd
              let results := searchId store myparid
              if results.length ≠ 1 then .ok (store, .skipped)
              else
                match results.head? with
                | none => .error .typeError  -- unreachable under the guard
                | some par0 =>
                    let par1 := popAll par0
                    if par1.hasKey "_version_" then
                      match rec3.get "metadata_identifier" with
                      | some (.s mid) =>
                          match mergeChild (par1.pop "_version_")
                              (pyReplace mid ":" "_") with
                          | .error e => .error e
                          | .ok par2 =>
                              .ok (addDoc (addDoc store rec3) par2, .done)
                      | some _ => .error .attrError
                      | none => .error .keyError
                    else
                      -- `myresults` is still the pysolr Results object:
                      -- item assignment raises TypeError
                      .error .typeError
  | some _ => .error .attrError  -- `.replace` on a non-string

theorem get_popFold_not_mem (d : Doc) (ks : List String) (K : String)
    (h : K ∉ ks) : (ks.foldl Doc.pop d).get K = d.get K := by
  induction ks generalizing d with
  | nil => rfl
  | cons k ks ih =>
      rw [List.foldl_cons, ih _ (fun hm => h (List.mem_cons_of_mem _ hm))]
      exact Doc.get_pop_ne d k K
        (fun he => h (he ▸ List.mem_cons_self _ _))

theorem popAll_get_ne (d : Doc) (K : String) (h : K ∉ popKeys) :
    (popAll d).get K = d.get K :=
  get_popFold_not_mem d popKeys K h

theorem featStep_no_opendap (rec : Doc) (feat : Option String)
    (h : rec.get "data_access_url_opendap" = none) :
    featStep rec feat = rec := by
  unfold featStep
  rw [Doc.hasKey, h]
  rfl

/-- **C6.** The child-link operation performs no store writes unless the
query for the sanitised parent reference returns exactly one match: with
zero or several matching documents it returns normally (`return`, so the
batch continues) having written neither the child nor any parent document
(`IndexMMD.add_level2`, lines 1077–1090 versus the writes at
1128–1140). -/
theorem add_level2_skip_nonunique (store : List Doc) (rec : Doc)
    (feat thumb : Option String) (rd : String)
    (hrd : rec.get "related_dataset" = some (.s rd))
    (hid : (rec.get "id").isSome)
    (hlen : (searchId store (sanitizeId (npiClean rd))).length ≠ 1) :
    add_level2 store rec false feat thumb = .ok (store, .skipped) := by
  obtain ⟨idv, hidv⟩ := Option.isSome_iff_exists.mp hid
  have h3 : (featStep ((rec.set "related_dataset" (.s (npiClean rd))).set
      "isChild" (.s "true")) feat).get "id" = some idv := by
    rw [featStep_get_ne _ _ _ (by decide),
      Doc.get_set_ne _ _ _ _ (by decide),
      Doc.get_set_ne _ _ _ _ (by decide), hidv]
  unfold add_level2
  rw [hrd]
  simp only [h3, Bool.false_eq_true, if_false]
  rw [if_pos hlen]

/-- **C6 witness.** A concrete child record against an empty store: zero
matches, so the operation skips with the store untouched. -/
theorem add_level2_skip_nonunique_witness :
    add_level2 [] [("related_dataset", .s "no:parent"), ("id", .s "c1")]
      false none none = .ok ([], .skipped) :=
  add_level2_skip_nonunique [] [("related_dataset", .s "no:parent"),
    ("id", .s "c1")] none none "no:parent" rfl (by decide) (by decide)

theorem add_level2_success (store : List Doc) (rec par : Doc)
    (rd cid mid : String) (feat thumb : Option String) (par2 : Doc)
    (hrd : rec.get "related_dataset" = some (.s rd))
    (hid : rec.get "id" = some (.s cid))
    (hmid : rec.get "metadata_identifier" = some (.s mid))
    (hnoop : rec.get "data_access_url_opendap" = none)
    (hsearch : searchId store (sanitizeId (npiClean rd)) = [par])
    (hver : (popAll par).hasKey "_version_" = true)
    (hmerge : mergeChild ((popAll par).pop "_version_")
      (pyReplace mid ":" "_") = .ok par2) :
    add_level2 store rec false feat thumb =
      .ok (addDoc (addDoc store ((rec.set "related_dataset"
        (.s (npiClean rd))).set "isChild" (.s "true"))) par2, .done) := by
  have hno1 : ((rec.set "related_dataset" (.s (npiClean rd))).set "isChild"
      (.s "true")).get "data_access_url_opendap" = none := by
    rw [Doc.get_set_ne _ _ _ _ (by decide),
      Doc.get_set_ne _ _ _ _ (by decide), hnoop]
  have hfeat : featStep ((rec.set "related_dataset" (.s (npiClean rd))).set
      "isChild" (.s "true")) feat = (rec.set "related_dataset"
      (.s (npiClean rd))).set "isChild" (.s "true") :=
    featStep_no_opendap _ feat hno1
  have hid1 : ((rec.set "related_dataset" (.s (npiClean rd))).set "isChild"
      (.s "true")).get "id" = some (.s cid) := by
    rw [Doc.get_set_ne _ _ _ _ (by decide),
      Doc.get_set_ne _ _ _ _ (by decide), hid]
  have hmid1 : ((rec.set "related_dataset" (.s (npiClean rd))).set
      "isChild" (.s "true")).get "metadata_identifier" = some (.s mid) := by
    rw [Doc.get_set_ne _ _ _ _ (by decide),
      Doc.get_set_ne _ _ _ _ (by decide), hmid]
  unfold add_level2
  rw [hrd]
  simp only [hfeat, hid1, Bool.false_eq_true, if_false, hsearch, hmid1]
  rw [if_neg (by simp)]
  simp only [List.head?_cons]
  rw [if_pos hver]
  simp only [hmid1, hmerge]

theorem sameId_eq {a b : Doc} {x y : String}
    (ha : a.get "id" = some (.s x)) (hb : b.get "id" = some (.s y)) :
    sameId a b = decide (x = y) := by
  unfold sameId
  rw [ha, hb]

/-- **C2 (amended).** Invoking the child-link operation twice with the same
child record against a store holding exactly the (so far childless) parent
leaves the parent's `related_dataset` list holding exactly one occurrence
of the appended child reference — which is `metadata_identifier` with `:`
replaced by `_` (not the `:/.`→`-` sanitised identifier): the second
invocation finds the reference already present and does not append again
(`IndexMMD.add_level2`, lines 1112–1122). -/
theorem add_level2_idempotent_merge (rec par : Doc)
    (rd cid mid pid : String) (feat thumb : Option String)
    (hrd : rec.get "related_dataset" = some (.s rd))
    (hid : rec.get "id" = some (.s cid))
    (hmid : rec.get "metadata_identifier" = some (.s mid))
    (hnoop : rec.get "data_access_url_opendap" = none)
    (hpid : pid = sanitizeId (npiClean rd))
    (hparid : par.get "id" = some (.s pid))
    (hver : (par.get "_version_").isSome)
    (hprel : par.get "related_dataset" = none)
    (hne : cid ≠ pid) :
    ∃ s1 s2 p3, add_level2 [par] rec false feat thumb = .ok (s1, .done) ∧
      add_level2 s1 rec false feat thumb = .ok (s2, .done) ∧
      searchId s2 pid = [p3] ∧
      p3.get "related_dataset" =
        some (.list [.s (pyReplace mid ":" "_")]) ∧
      (([Val.s (pyReplace mid ":" "_")]).filter
        (fun c => c.eqStr (pyReplace mid ":" "_"))).length = 1 := by
  obtain ⟨vv, hvv⟩ := Option.isSome_iff_exists.mp hver
  set u := pyReplace mid ":" "_" with hu
  set rec1 := (rec.set "related_dataset" (.s (npiClean rd))).set "isChild"
    (.s "true") with hrec1
  set q1 := (popAll par).pop "_version_" with hq1
  set p2 := (q1.set "isParent" (.s "true")).set "related_dataset"
    (.list [.s u]) with hp2
  set rec1v := rec1.set "_version_" (.s "v") with hrec1v
  set p2v := p2.set "_version_" (.s "v") with hp2v
  -- boilerplate gets
  have hrec1id : rec1.get "id" = some (.s cid) := by
    rw [hrec1, Doc.get_set_ne _ _ _ _ (by decide),
      Doc.get_set_ne _ _ _ _ (by decide), hid]
  have hrec1vid : rec1v.get "id" = some (.s cid) := by
    rw [hrec1v, Doc.get_set_ne _ _ _ _ (by decide), hrec1id]
  have hq1id : q1.get "id" = some (.s pid) := by
    rw [hq1, Doc.get_pop_ne _ _ _ (by decide),
      popAll_get_ne _ _ (by decide), hparid]
  have hp2id : p2.get "id" = some (.s pid) := by
    rw [hp2, Doc.get_set_ne _ _ _ _ (by decide),
      Doc.get_set_ne _ _ _ _ (by decide), hq1id]
  have hp2vid : p2v.get "id" = some (.s pid) := by
    rw [hp2v, Doc.get_set_ne _ _ _ _ (by decide), hp2id]
  -- run 1
  have hs1 : searchId [par] (sanitizeId (npiClean rd)) = [par] := by
    rw [← hpid]
    simp [searchId, List.filter, hparid, Val.eqStr]
  have hver1 : (popAll par).hasKey "_version_" = true := by
    rw [Doc.hasKey, popAll_get_ne _ _ (by decide), hvv]
    rfl
  have hrel1 : (q1.set "isParent" (.s "true")).get "related_dataset" =
      none := by
    rw [Doc.get_set_ne _ _ _ _ (by decide), hq1,
      Doc.get_pop_ne _ _ _ (by decide), popAll_get_ne _ _ (by decide),
      hprel]
  have hmerge1 : mergeChild q1 u = .ok p2 := by
    unfold mergeChild
    simp only [hrel1]
  have hrun1 : add_level2 [par] rec false feat thumb =
      .ok (addDoc (addDoc [par] rec1) p2, .done) := by
    rw [hrec1]
    exact add_level2_success [par] rec par rd cid mid feat thumb p2 hrd hid
      hmid hnoop hs1 hver1 (by rw [← hq1]; exact hmerge1)
  -- compute the store after run 1
  have hsame1 : sameId par rec1 = false := by
    rw [sameId_eq hparid hrec1id, decide_eq_false (Ne.symm hne)]
  have hsamep : sameId par p2 = true := by
    rw [sameId_eq hparid hp2id]
    simp
  have hsamer : sameId rec1v p2 = false := by
    rw [sameId_eq hrec1vid hp2id, decide_eq_false hne]
  have hstore1 : addDoc (addDoc [par] rec1) p2 = [rec1v, p2v] := by
    rw [addDoc, addDoc]
    simp only [List.filter, hsame1, Bool.not_false, List.filter_nil,
      List.singleton_append, hsamep, Bool.not_true, hsamer]
  -- run 2
  have hs2 : searchId [rec1v, p2v] (sanitizeId (npiClean rd)) = [p2v] := by
    rw [← hpid]
    simp [searchId, List.filter, hrec1vid, hp2vid, Val.eqStr, hne]
  have hver2 : (popAll p2v).hasKey "_version_" = true := by
    rw [Doc.hasKey, popAll_get_ne _ _ (by decide), hp2v,
      Doc.get_set_same]
    rfl
  have hrel2 : (((popAll p2v).pop "_version_").set "isParent"
      (.s "true")).get "related_dataset" = some (.list [.s u]) := by
    rw [Doc.get_set_ne _ _ _ _ (by decide),
      Doc.get_pop_ne _ _ _ (by decide), popAll_get_ne _ _ (by decide),
      hp2v, Doc.get_set_ne _ _ _ _ (by decide), hp2, Doc.get_set_same]
  have hmerge2 : mergeChild ((popAll p2v).pop "_version_") u =
      .ok (((popAll p2v).pop "_version_").set "isParent" (.s "true")) := by
    unfold mergeChild
    simp only [hrel2, List.any_cons, List.any_nil, Bool.or_false]
    rw [show (Val.s u).eqStr u = true by simp [Val.eqStr]]
    rfl
  have hrun2 : add_level2 [rec1v, p2v] rec false feat thumb =
      .ok (addDoc (addDoc [rec1v, p2v] rec1)
        (((popAll p2v).pop "_version_").set "isParent" (.s "true")),
        .done) := by
    rw [hrec1]
    exact add_level2_success [rec1v, p2v] rec p2v rd cid mid feat thumb _
      hrd hid hmid hnoop hs2 hver2 hmerge2
  set p3 := ((popAll p2v).pop "_version_").set "isParent" (.s "true")
    with hp3
  set p3v := p3.set "_version_" (.s "v") with hp3v
  have hp3id : p3.get "id" = some (.s pid) := by
    rw [hp3, Doc.get_set_ne _ _ _ _ (by decide),
      Doc.get_pop_ne _ _ _ (by decide), popAll_get_ne _ _ (by decide),
      hp2vid]
  have hp3vid : p3v.get "id" = some (.s pid) := by
    rw [hp3v, Doc.get_set_ne _ _ _ _ (by decide), hp3id]
  have hsame21 : sameId rec1v rec1 = true := by
    rw [sameId_eq hrec1vid hrec1id]
    simp
  have hsame22 : sameId p2v rec1 = false := by
    rw [sameId_eq hp2vid hrec1id, decide_eq_false (Ne.symm hne)]
  have hsame23 : sameId p2v p3 = true := by
    rw [sameId_eq hp2vid hp3id]
    simp
  have hsame24 : sameId rec1v p3 = false := by
    rw [sameId_eq hrec1vid hp3id, decide_eq_false hne]
  have hstore2 : addDoc (addDoc [rec1v, p2v] rec1) p3 = [rec1v, p3v] := by
    rw [addDoc, addDoc]
    simp only [List.filter, hsame21, Bool.not_true, hsame22,
      Bool.not_false, List.filter_nil, hsame23, hsame24]
    rfl
  refine ⟨[rec1v, p2v], [rec1v, p3v], p3v, ?_, ?_, ?_, ?_, ?_⟩
  · rw [hrun1, hstore1]
  · rw [hrun2, hstore2]
  · simp [searchId, List.filter, hrec1vid, hp3vid, Val.eqStr, hne]
  · rw [hp3v, Doc.get_set_ne _ _ _ _ (by decide), hp3,
      Doc.get_set_ne _ _ _ _ (by decide),
      Doc.get_pop_ne _ _ _ (by decide), popAll_get_ne _ _ (by decide),
      hp2v, Doc.get_set_ne _ _ _ _ (by decide), hp2, Doc.get_set_same]
  · simp [Val.eqStr]

/-- Run the child-link operation and keep the resulting store (for
concrete evaluation). -/
def runL2 (store : List Doc) (rec : Doc) : List Doc :=
  match add_level2 store rec false none none with
  | .ok (s, _) => s
  | .error _ => []

/-- Whether the child-link operation reached the terminal both-written
state. -/
def l2Done (store : List Doc) (rec : Doc) : Bool :=
  match add_level2 store rec false none none with
  | .ok (_, .done) => true
  | _ => false

/-- The child-reference list of the stored parent with the given id. -/
def parentRel (s : List Doc) (pid : String) : List Val :=
  match (searchId s pid).head? with
  | some p =>
      match p.get "related_dataset" with
      | some (.list xs) => xs
      | _ => []
  | none => []

/-- **C2 counterexample.** Child id `no:child` linked twice under parent
`no:parent`: both runs succeed, but the parent's child-reference list never
contains the sanitised identifier `sanitizeId "no:child" = "no-child"`
(count 0) — the code appends `metadata_identifier.replace(':','_')`, i.e.
`no_child` (count 1).  The claim "the child's sanitized identifier appears
exactly once" is false at this input. -/
theorem add_level2_sanitized_id_not_used :
    l2Done [[("id", .s "no-parent"), ("_version_", .s "v")]]
      [("related_dataset", .s "no:parent"), ("id", .s "child-1"),
       ("metadata_identifier", .s "no:child")] = true ∧
    l2Done (runL2 [[("id", .s "no-parent"), ("_version_", .s "v")]]
        [("related_dataset", .s "no:parent"), ("id", .s "child-1"),
         ("metadata_identifier", .s "no:child")])
      [("related_dataset", .s "no:parent"), ("id", .s "child-1"),
       ("metadata_identifier", .s "no:child")] = true ∧
    ((parentRel (runL2 (runL2 [[("id", .s "no-parent"),
        ("_version_", .s "v")]]
        [("related_dataset", .s "no:parent"), ("id", .s "child-1"),
         ("metadata_identifier", .s "no:child")])
        [("related_dataset", .s "no:parent"), ("id", .s "child-1"),
         ("metadata_identifier", .s "no:child")]) "no-parent").filter
      (fun c => c.eqStr (sanitizeId "no:child"))).length = 0 ∧
    ((parentRel (runL2 (runL2 [[("id", .s "no-parent"),
        ("_version_", .s "v")]]
        [("related_dataset", .s "no:parent"), ("id", .s "child-1"),
         ("metadata_identifier", .s "no:child")])
        [("related_dataset", .s "no:parent"), ("id", .s "child-1"),
         ("metadata_identifier", .s "no:child")]) "no-parent").filter
      (fun c => c.eqStr "no_child")).length = 1 := by
  refine ⟨rfl, rfl, rfl, rfl⟩

/-- **C2 witness.** The idempotent merge applied at the concrete child
`no:child` against the parent `no-parent`. -/
theorem add_level2_idempotent_merge_witness :
    ∃ s1 s2 p3,
      add_level2 [[("id", .s "no-parent"), ("_version_", .s "v")]]
        [("related_dataset", .s "no:parent"), ("id", .s "child-1"),
         ("metadata_identifier", .s "no:child")] false none none =
        .ok (s1, .done) ∧
      add_level2 s1 [("related_dataset", .s "no:parent"),
        ("id", .s "child-1"), ("metadata_identifier", .s "no:child")]
        false none none = .ok (s2, .done) ∧
      searchId s2 "no-parent" = [p3] ∧
      p3.get "related_dataset" =
        some (.list [.s (pyReplace "no:child" ":" "_")]) ∧
      (([Val.s (pyReplace "no:child" ":" "_")]).filter
        (fun c => c.eqStr (pyReplace "no:child" ":" "_"))).length = 1 :=
  add_level2_idempotent_merge
    [("related_dataset", .s "no:parent"), ("id", .s "child-1"),
     ("metadata_identifier", .s "no:child")]
    [("id", .s "no-parent"), ("_version_", .s "v")]
    "no:parent" "child-1" "no:child" "no-parent" none none
    rfl rfl rfl rfl (by rfl) rfl (by rfl) rfl (by decide)

end SolrInd
